import Mathlib

/-!
Verification of the trajmap rendering pipeline against its specification.

The TypeScript sources are shallowly embedded over exact rational
arithmetic (`ℚ`).  Calls into the transcendental parts of the JS `Math`
library (`log`, `tan`, `atan`, `exp`, `sinh`, `asinh`, `log2`) and the
constant `Math.PI` are abstracted into a `RealOps` parameter: every
embedded function receives the operations as an argument and applies them
at exactly the call sites the source does.  Theorems that need analytic
facts about these operations (monotonicity, forward/inverse round trips)
take them as explicit hypotheses, and witnesses instantiate `RealOps`
with concrete rational models satisfying those hypotheses.
-/

namespace Trajmap

/-- GPS coordinate point (`LatLng` in `src/types/index.ts`). -/
structure LatLng where
  lat : ℚ
  lng : ℚ
deriving DecidableEq, Repr

/-- Geographic boundary (`GeoBounds` in `src/types/index.ts`). -/
structure GeoBounds where
  minLat : ℚ
  maxLat : ℚ
  minLng : ℚ
  maxLng : ℚ
deriving DecidableEq, Repr

/-- Pixel coordinate (`PixelPoint` in `src/types/index.ts`). -/
structure PixelPoint where
  x : ℚ
  y : ℚ
deriving DecidableEq, Repr

/-- Pixel boundary (`PixelBounds` in `src/types/index.ts`).  The fields are
rationals because `ProjectionService.calculateTrajectoryPixelBounds` stores
fractional pixel coordinates in the same structure that the integral
crop rectangle uses. -/
structure PixelBounds where
  minX : ℚ
  maxX : ℚ
  minY : ℚ
  maxY : ℚ
deriving DecidableEq, Repr

/-- Web-Mercator meter coordinates, the `{x, y}` record returned by
`MercatorUtil.latLngToMeters`. -/
structure MeterPoint where
  x : ℚ
  y : ℚ
deriving DecidableEq, Repr

/-- Track region configuration (`TrackRegion` in `src/types/index.ts`). -/
structure TrackRegion where
  width : ℚ
  height : ℚ
deriving DecidableEq, Repr

/-- Expansion region configuration (`ExpansionRegion` in
`src/types/index.ts`); every field is optional. -/
structure ExpansionRegion where
  upPercent : Option ℚ
  downPercent : Option ℚ
  leftPercent : Option ℚ
  rightPercent : Option ℚ
deriving DecidableEq, Repr

/-- Tile coordinate (`TileCoord` in `src/types/index.ts`). -/
structure TileCoord where
  x : ℤ
  y : ℤ
  z : ℕ
deriving DecidableEq, Repr

/-- Tile data (`TileData` in `src/types/index.ts`); the image buffer is a
byte list. -/
structure TileData where
  coord : TileCoord
  buffer : List ℕ
  bounds : GeoBounds
deriving DecidableEq, Repr

/-- Tile grid information (`TileGrid` in `src/types/index.ts`). -/
structure TileGrid where
  tiles : List TileData
  targetBounds : GeoBounds
  tileBounds : GeoBounds
  zoom : ℕ
deriving DecidableEq, Repr

/-- Result of `TileService.calculateTiles` (`TileResult`). -/
structure TileResult where
  tileGrid : TileGrid
  zoom : ℕ
deriving DecidableEq, Repr

/-- Result of `BoundaryService.calculateBounds` (`BoundaryResult` in
`src/types/index.ts`): the final bounds plus the four retained stages. -/
structure BoundaryResult where
  bounds : GeoBounds
  bound0 : GeoBounds
  bound1 : GeoBounds
  bound2 : GeoBounds
  bound3 : GeoBounds
deriving DecidableEq, Repr

/-- Result of `ProjectionService.projectTrajectory` (`ProjectionResult`),
without the raster buffer, which belongs to the drawing collaborator. -/
structure ProjectionResult where
  gpsPoints : List LatLng
  bounds : GeoBounds
  pixelBounds : PixelBounds
deriving DecidableEq, Repr

/-- The transcendental operations of the JS `Math` library used by the
sources, abstracted as rational-valued operations.  `pi` stands for
`Math.PI`. -/
structure RealOps where
  pi : ℚ
  log : ℚ → ℚ
  tan : ℚ → ℚ
  atan : ℚ → ℚ
  exp : ℚ → ℚ
  sinh : ℚ → ℚ
  asinh : ℚ → ℚ
  log2 : ℚ → ℚ

/-- JS `Math.round`: round half toward positive infinity. -/
def jsRound (q : ℚ) : ℤ := ⌊q + 1 / 2⌋

/-- Wrap an integer into signed 32-bit range, the coercion JS applies to
operands of bitwise operators. -/
def toInt32 (n : ℤ) : ℤ := (n + 2 ^ 31) % 2 ^ 32 - 2 ^ 31

/-- Number of directions set on an `ExpansionRegion`
(`setDirections.filter(Boolean).length` in
`ValidationUtil.validateExpansionRegion`). -/
def setDirections (e : ExpansionRegion) : ℕ :=
  [e.upPercent.isSome, e.downPercent.isSome,
   e.leftPercent.isSome, e.rightPercent.isSome].count true

/-- Range check of one optional percentage field: a set value must lie in
`[0, 1]` (`src/utils/validation.ts` lines 22 to 29). -/
def validRange (v : Option ℚ) : Bool :=
  match v with
  | none => true
  | some x => decide (0 ≤ x ∧ x ≤ 1)

/-- `ValidationUtil.validateExpansionRegion` (`src/utils/validation.ts`
lines 15 to 42): each set field must be in `[0, 1]`, and at most one
direction may be set. -/
def ValidationUtil.validateExpansionRegion (e : ExpansionRegion) : Except String Unit :=
  if ¬ validRange e.upPercent then
    .error "ExpansionRegion.upPercent must be a number between 0 and 1"
  else if ¬ validRange e.downPercent then
    .error "ExpansionRegion.downPercent must be a number between 0 and 1"
  else if ¬ validRange e.leftPercent then
    .error "ExpansionRegion.leftPercent must be a number between 0 and 1"
  else if ¬ validRange e.rightPercent then
    .error "ExpansionRegion.rightPercent must be a number between 0 and 1"
  else if 1 < setDirections e then
    .error "ExpansionRegion can have at most one direction set"
  else
    .ok ()

/-- `ORIGIN_SHIFT = 2 * Math.PI * 6378137 / 2` of `MercatorUtil`
(`src/utils/mercator.ts`). -/
def ORIGIN_SHIFT (R : RealOps) : ℚ := 2 * R.pi * 6378137 / 2

/-- `MercatorUtil.latLngToMeters`: degrees to Web-Mercator meters. -/
def MercatorUtil.latLngToMeters (R : RealOps) (latLng : LatLng) : MeterPoint :=
  let x := latLng.lng * ORIGIN_SHIFT R / 180
  let y0 := R.log (R.tan ((90 + latLng.lat) * R.pi / 360)) / (R.pi / 180)
  let y := y0 * ORIGIN_SHIFT R / 180
  ⟨x, y⟩

/-- `MercatorUtil.metersToLatLng`: Web-Mercator meters to degrees. -/
def MercatorUtil.metersToLatLng (R : RealOps) (x y : ℚ) : LatLng :=
  let lng := x / ORIGIN_SHIFT R * 180
  let lat0 := y / ORIGIN_SHIFT R * 180
  let lat := 180 / R.pi * (2 * R.atan (R.exp (lat0 * R.pi / 180)) - R.pi / 2)
  ⟨lat, lng⟩

/-- Normalized Mercator latitude `asinh(tan(lat * π / 180)) / π`, the
subterm of `MercatorUtil.latLngToTile`; it ranges over `(-1, 1)` and is
strictly increasing in `lat`. -/
def mercNorm (R : RealOps) (lat : ℚ) : ℚ :=
  R.asinh (R.tan (lat * R.pi / 180)) / R.pi

/-- Inverse of `mercNorm`: `atan(sinh(π * t)) * 180 / π`, the subterm of
`MercatorUtil.tileToBounds`. -/
def latOfNorm (R : RealOps) (t : ℚ) : ℚ :=
  R.atan (R.sinh (R.pi * t)) * 180 / R.pi

/-- `MercatorUtil.latLngToTile`: degrees to tile coordinates at a zoom
level; `x = floor((lng + 180) / 360 * 2^zoom)` and
`y = floor((1 - asinh(tan(lat * π / 180)) / π) / 2 * 2^zoom)`. -/
def MercatorUtil.latLngToTile (R : RealOps) (latLng : LatLng) (zoom : ℕ) : ℤ × ℤ :=
  let n : ℚ := 2 ^ zoom
  let x := ⌊(latLng.lng + 180) / 360 * n⌋
  let y := ⌊(1 - mercNorm R latLng.lat) / 2 * n⌋
  (x, y)

/-- `MercatorUtil.tileToBounds`: geographic bounds of one tile. -/
def MercatorUtil.tileToBounds (R : RealOps) (x y : ℤ) (zoom : ℕ) : GeoBounds :=
  let n : ℚ := 2 ^ zoom
  let minLng := (x : ℚ) / n * 360 - 180
  let maxLng := ((x : ℚ) + 1) / n * 360 - 180
  let minLat := latOfNorm R (1 - 2 * ((y : ℚ) + 1) / n)
  let maxLat := latOfNorm R (1 - 2 * (y : ℚ) / n)
  ⟨minLat, maxLat, minLng, maxLng⟩

/-- `MercatorUtil.geoBoundsToPixelBounds` (the linear-interpolation
variant at `src/utils/validation.ts` lines 248 to 263): floor the min
edge, ceil the max edge of the target rectangle relative to the image
rectangle.  The source performs no validation and never throws. -/
def MercatorUtil.geoBoundsToPixelBounds (targetBounds imageBounds : GeoBounds)
    (imageWidth imageHeight : ℚ) : PixelBounds :=
  let lngRange := imageBounds.maxLng - imageBounds.minLng
  let latRange := imageBounds.maxLat - imageBounds.minLat
  let minX := ⌊(targetBounds.minLng - imageBounds.minLng) / lngRange * imageWidth⌋
  let maxX := ⌈(targetBounds.maxLng - imageBounds.minLng) / lngRange * imageWidth⌉
  let minY := ⌊(imageBounds.maxLat - targetBounds.maxLat) / latRange * imageHeight⌋
  let maxY := ⌈(imageBounds.maxLat - targetBounds.minLat) / latRange * imageHeight⌉
  ⟨(minX : ℚ), (maxX : ℚ), (minY : ℚ), (maxY : ℚ)⟩

/-- Modelled from the spec: the absolute Mercator pixel x coordinate at a
zoom level, `(lng + 180) / 360 * (256 * 2^zoom)`.  The implementation
delegates to `px` of the external `@mapbox/sphericalmercator` package,
which is not part of this repository; the spec describes the transform as
the exact conversion into one shared absolute Mercator-pixel space. -/
def mercPixelX (lng : ℚ) (zoom : ℕ) : ℚ :=
  (lng + 180) / 360 * (256 * 2 ^ zoom)

/-- Modelled from the spec: the absolute Mercator pixel y coordinate at a
zoom level, `(1 - mercNorm lat) / 2 * (256 * 2^zoom)`; y grows southward.
Same external-package caveat as `mercPixelX`. -/
def mercPixelY (R : RealOps) (lat : ℚ) (zoom : ℕ) : ℚ :=
  (1 - mercNorm R lat) / 2 * (256 * 2 ^ zoom)

/-- `MercatorUtil.geoBoundsToPixelBounds` (the Mercator-pixel variant at
`src/utils/validation.ts` lines 118 to 148): project both rectangles to
absolute Mercator pixels (`px`, modelled by `mercPixelX`, `mercPixelY`),
then floor the min edge and ceil the max edge of the relative rescaling
of the target into the image frame. -/
def MercatorUtil.geoBoundsToPixelBoundsAtZoom (R : RealOps)
    (targetBounds imageBounds : GeoBounds)
    (imageWidth imageHeight : ℚ) (zoom : ℕ) : PixelBounds :=
  let minX := mercPixelX targetBounds.minLng zoom
  let maxY := mercPixelY R targetBounds.minLat zoom
  let maxX := mercPixelX targetBounds.maxLng zoom
  let minY := mercPixelY R targetBounds.maxLat zoom
  let imageMinX := mercPixelX imageBounds.minLng zoom
  let imageMaxY := mercPixelY R imageBounds.minLat zoom
  let imageMaxX := mercPixelX imageBounds.maxLng zoom
  let imageMinY := mercPixelY R imageBounds.maxLat zoom
  let relativeMinX := ⌊(minX - imageMinX) * imageWidth / (imageMaxX - imageMinX)⌋
  let relativeMaxX := ⌈(maxX - imageMinX) * imageWidth / (imageMaxX - imageMinX)⌉
  let relativeMinY := ⌊(minY - imageMinY) * imageHeight / (imageMaxY - imageMinY)⌋
  let relativeMaxY := ⌈(maxY - imageMinY) * imageHeight / (imageMaxY - imageMinY)⌉
  ⟨(relativeMinX : ℚ), (relativeMaxX : ℚ), (relativeMinY : ℚ), (relativeMaxY : ℚ)⟩

/-- `MercatorUtil.latLngToPixel` (the Mercator-pixel variant at
`src/utils/validation.ts` lines 166 to 188): project the point and the
image corners to absolute Mercator pixels, then rescale into the image
frame. -/
def MercatorUtil.latLngToPixelAtZoom (R : RealOps) (latLng : LatLng)
    (imageBounds : GeoBounds) (imageWidth imageHeight : ℚ) (zoom : ℕ) : PixelPoint :=
  let targetX := mercPixelX latLng.lng zoom
  let targetY := mercPixelY R latLng.lat zoom
  let imageMinX := mercPixelX imageBounds.minLng zoom
  let imageMaxY := mercPixelY R imageBounds.minLat zoom
  let imageMaxX := mercPixelX imageBounds.maxLng zoom
  let imageMinY := mercPixelY R imageBounds.maxLat zoom
  let x := (targetX - imageMinX) * imageWidth / (imageMaxX - imageMinX)
  let y := (targetY - imageMinY) * imageHeight / (imageMaxY - imageMinY)
  ⟨x, y⟩

/-- `GeoUtil.calculateBounds` (`src/utils/geo.ts` lines 35 to 53): tight
min/max box over all points; throws on an empty array. -/
def GeoUtil.calculateBounds (points : List LatLng) : Except String GeoBounds :=
  match points with
  | [] => .error "Cannot calculate bounds from empty points array"
  | p0 :: _ =>
    .ok (points.foldl
      (fun b p =>
        ⟨min b.minLat p.lat, max b.maxLat p.lat, min b.minLng p.lng, max b.maxLng p.lng⟩)
      ⟨p0.lat, p0.lat, p0.lng, p0.lng⟩)

/-- `GeoUtil.expandBufferBounds` (`src/utils/geo.ts` lines 58 to 70):
expand all four edges by `(latRange + lngRange) / 2 * percentage / 100`. -/
def GeoUtil.expandBufferBounds (bounds : GeoBounds) (percentage : ℚ) : GeoBounds :=
  let latRange := bounds.maxLat - bounds.minLat
  let lngRange := bounds.maxLng - bounds.minLng
  let avgRange := (latRange + lngRange) / 2
  let expansion := avgRange * percentage / 100
  ⟨bounds.minLat - expansion, bounds.maxLat + expansion,
   bounds.minLng - expansion, bounds.maxLng + expansion⟩

/-- `GeoUtil.adjustBoundsToAspectRatio` (`src/utils/geo.ts` lines 76 to
118): compare the Mercator-meter aspect ratio of the bounds with the
track-region ratio and symmetrically widen the deficient axis about the
center. -/
def GeoUtil.adjustBoundsToAspectRatio (R : RealOps) (bounds : GeoBounds)
    (trackRegion : TrackRegion) : GeoBounds :=
  let targetRatio := trackRegion.width / trackRegion.height
  let minPoint := MercatorUtil.latLngToMeters R ⟨bounds.minLat, bounds.minLng⟩
  let maxPoint := MercatorUtil.latLngToMeters R ⟨bounds.maxLat, bounds.maxLng⟩
  let widthMeters := maxPoint.x - minPoint.x
  let heightMeters := maxPoint.y - minPoint.y
  let currentRatio := widthMeters / heightMeters
  let centerLat := (bounds.minLat + bounds.maxLat) / 2
  let centerLng := (bounds.minLng + bounds.maxLng) / 2
  let centerPoint := MercatorUtil.latLngToMeters R ⟨centerLat, centerLng⟩
  if currentRatio < targetRatio then
    let newWidthMeters := heightMeters * targetRatio
    let newMinPoint := MercatorUtil.metersToLatLng R (centerPoint.x - newWidthMeters / 2) minPoint.y
    let newMaxPoint := MercatorUtil.metersToLatLng R (centerPoint.x + newWidthMeters / 2) maxPoint.y
    ⟨bounds.minLat, bounds.maxLat, newMinPoint.lng, newMaxPoint.lng⟩
  else
    let newHeightMeters := widthMeters / targetRatio
    let newMinPoint := MercatorUtil.metersToLatLng R minPoint.x (centerPoint.y - newHeightMeters / 2)
    let newMaxPoint := MercatorUtil.metersToLatLng R maxPoint.x (centerPoint.y + newHeightMeters / 2)
    ⟨newMinPoint.lat, newMaxPoint.lat, bounds.minLng, bounds.maxLng⟩

/-- `GeoUtil.applyExpansionRegion` (`src/utils/geo.ts` lines 123 to 146):
validate, then grow each edge by the corresponding percentage of the
axis range.  A JS falsy check guards each field, so an unset (or zero)
percentage contributes `0`. -/
def GeoUtil.applyExpansionRegion (bounds : GeoBounds)
    (expansion : Option ExpansionRegion) : Except String GeoBounds :=
  match expansion with
  | none => .ok bounds
  | some e =>
    match ValidationUtil.validateExpansionRegion e with
    | .error msg => .error msg
    | .ok _ =>
      let latRange := bounds.maxLat - bounds.minLat
      let lngRange := bounds.maxLng - bounds.minLng
      let upExpansion := match e.upPercent with
        | some v => if v = 0 then 0 else latRange * v
        | none => 0
      let downExpansion := match e.downPercent with
        | some v => if v = 0 then 0 else latRange * v
        | none => 0
      let leftExpansion := match e.leftPercent with
        | some v => if v = 0 then 0 else lngRange * v
        | none => 0
      let rightExpansion := match e.rightPercent with
        | some v => if v = 0 then 0 else lngRange * v
        | none => 0
      .ok ⟨bounds.minLat - downExpansion, bounds.maxLat + upExpansion,
           bounds.minLng - leftExpansion, bounds.maxLng + rightExpansion⟩

/-- `BoundaryService.calculateBounds` (`src/renderer/mapRenderer.ts`
lines 171 to 203, the variant matching the current `BoundaryResult`
type): tight box, 10 percent buffer, aspect-ratio fit, directional
expansion; the final bounds are `bound3`. -/
def BoundaryService.calculateBounds (R : RealOps) (gpsPoints : List LatLng)
    (trackRegion : TrackRegion) (expansionRegion : Option ExpansionRegion) :
    Except String BoundaryResult :=
  match gpsPoints with
  | [] => .error "Cannot calculate bounds from empty GPS points"
  | _ :: _ =>
    match GeoUtil.calculateBounds gpsPoints with
    | .error msg => .error msg
    | .ok bound0 =>
      let bound1 := GeoUtil.expandBufferBounds bound0 10
      let bound2 := GeoUtil.adjustBoundsToAspectRatio R bound1 trackRegion
      match GeoUtil.applyExpansionRegion bound2 expansionRegion with
      | .error msg => .error msg
      | .ok bound3 => .ok ⟨bound3, bound0, bound1, bound2, bound3⟩

/-- Inclusive integer range `[a, a+1, ..., b]`, the index set of a JS
`for (let i = a; i <= b; i++)` loop. -/
def intRange (a b : ℤ) : List ℤ :=
  (List.range (b + 1 - a).toNat).map (fun i => a + (i : ℤ))

/-- `TileService.calculateTiles` (`src/tiles/index.ts`, the variant that
records `targetBounds` and `tileBounds`): enumerate the rectangle of
tiles between the tile of the top-left corner `(maxLat, minLng)` and the
tile of the bottom-right corner `(minLat, maxLng)`, and derive the
grid's own geographic extent from the two corner tiles. -/
def TileService.calculateTiles (R : RealOps) (bounds : GeoBounds) (zoom : ℕ) : TileResult :=
  let topLeft := MercatorUtil.latLngToTile R ⟨bounds.maxLat, bounds.minLng⟩ zoom
  let bottomRight := MercatorUtil.latLngToTile R ⟨bounds.minLat, bounds.maxLng⟩ zoom
  let tiles : List TileData :=
    (intRange topLeft.1 bottomRight.1).flatMap (fun x =>
      (intRange topLeft.2 bottomRight.2).map (fun y =>
        ⟨⟨x, y, zoom⟩, [], MercatorUtil.tileToBounds R x y zoom⟩))
  let topLeftTileBounds := MercatorUtil.tileToBounds R topLeft.1 topLeft.2 zoom
  let bottomRightTileBounds := MercatorUtil.tileToBounds R bottomRight.1 bottomRight.2 zoom
  let tileBounds : GeoBounds :=
    ⟨bottomRightTileBounds.minLat, topLeftTileBounds.maxLat,
     topLeftTileBounds.minLng, bottomRightTileBounds.maxLng⟩
  ⟨⟨tiles, bounds, tileBounds, zoom⟩, zoom⟩

/-- `TileService.fetchTile` (`src/tiles/index.ts`): one tile fetch.  The
HTTP transfer is the external fetch collaborator, abstracted as
`fetcher : TileCoord → Except String (List ℕ)`; a rejected fetch is
rethrown with a per-tile message. -/
def TileService.fetchTile (fetcher : TileCoord → Except String (List ℕ))
    (R : RealOps) (coord : TileCoord) : Except String TileData :=
  match fetcher coord with
  | .ok buffer => .ok ⟨coord, buffer, MercatorUtil.tileToBounds R coord.x coord.y coord.z⟩
  | .error e => .error ("Failed to fetch tile: " ++ e)

/-- `TileService.fetchTileGrid` (`src/tiles/index.ts`): fetch every tile
of a grid with `Promise.all` semantics, which rejects as soon as any
single fetch rejects (modelled deterministically as the first failure in
list order); the rejection is rethrown wrapped in a grid-level message. -/
def TileService.fetchTileGrid (fetcher : TileCoord → Except String (List ℕ))
    (R : RealOps) (tileGrid : TileGrid) : Except String TileGrid :=
  match tileGrid.tiles.mapM (fun tile => TileService.fetchTile fetcher R tile.coord) with
  | .ok fetchedTiles => .ok { tileGrid with tiles := fetchedTiles }
  | .error e => .error ("Failed to fetch tile grid: " ++ e)

/-- The longitude-based zoom candidate of
`TileService.calculateOptimalZoom`:
`Math.log2(viewportWidth * 360 / (lngSpan * 256))`. -/
def zoomForLng (R : RealOps) (bounds : GeoBounds) (viewportWidth : ℚ) : ℚ :=
  let lngSpan := bounds.maxLng - bounds.minLng
  R.log2 (viewportWidth * 360 / (lngSpan * 256))

/-- The latitude-based zoom candidate of
`TileService.calculateOptimalZoom`, computed from the Mercator-Y span of
the latitude bounds. -/
def zoomForLat (R : RealOps) (bounds : GeoBounds) (viewportHeight : ℚ) : ℚ :=
  let latRad1 := bounds.minLat * R.pi / 180
  let latRad2 := bounds.maxLat * R.pi / 180
  let mercY1 := R.log (R.tan (R.pi / 4 + latRad1 / 2))
  let mercY2 := R.log (R.tan (R.pi / 4 + latRad2 / 2))
  let mercYSpan := |mercY2 - mercY1|
  R.log2 (viewportHeight * 2 * R.pi / (mercYSpan * 256))

/-- `TileService.calculateOptimalZoom` (`src/tiles/index.ts` lines 128 to
157): floor of the smaller of the two zoom candidates, clamped into
`[1, 18]`. -/
def TileService.calculateOptimalZoom (R : RealOps) (bounds : GeoBounds)
    (viewportWidth viewportHeight : ℚ) : ℤ :=
  let zoom := ⌊min (zoomForLng R bounds viewportWidth) (zoomForLat R bounds viewportHeight)⌋
  min (max zoom 1) 18

/-- `StitchingService.validatePixelBounds` (`src/stitching/index.ts`
lines 160 to 180): the crop rectangle must lie inside the image and be
non-degenerate. -/
def StitchingService.validatePixelBounds (pixelBounds : PixelBounds)
    (imageWidth imageHeight : ℚ) : Except String Unit :=
  if pixelBounds.minX < 0 ∨ imageWidth < pixelBounds.maxX then
    .error "Invalid X bounds for image width"
  else if pixelBounds.minY < 0 ∨ imageHeight < pixelBounds.maxY then
    .error "Invalid Y bounds for image height"
  else if pixelBounds.maxX ≤ pixelBounds.minX then
    .error "Invalid X bounds: min must be less than max"
  else if pixelBounds.maxY ≤ pixelBounds.minY then
    .error "Invalid Y bounds: min must be less than max"
  else
    .ok ()

/-- `ProjectionService.calculateTrajectoryPixelBounds`
(`src/projection/index.ts` lines 122 to 140): bounding box of the
projected trajectory points; throws on an empty list. -/
def ProjectionService.calculateTrajectoryPixelBounds (pixelPoints : List PixelPoint) :
    Except String PixelBounds :=
  match pixelPoints with
  | [] => .error "Cannot calculate bounds from empty pixel points"
  | p0 :: _ =>
    .ok (pixelPoints.foldl
      (fun b p => ⟨min b.minX p.x, max b.maxX p.x, min b.minY p.y, max b.maxY p.y⟩)
      ⟨p0.x, p0.x, p0.y, p0.y⟩)

/-- `RenderService.calculateOutputDimensions` (`src/render.ts` lines 357
to 376): scale the track region by `(1 + left + right)` horizontally and
`(1 + up + down)` vertically and round, when an expansion region is
provided; otherwise return the track region unchanged. -/
def RenderService.calculateOutputDimensions (trackRegion : TrackRegion)
    (expansionRegion : Option ExpansionRegion) : ℚ × ℚ :=
  match expansionRegion with
  | none => (trackRegion.width, trackRegion.height)
  | some e =>
    let leftExpansion := e.leftPercent.getD 0
    let rightExpansion := e.rightPercent.getD 0
    let upExpansion := e.upPercent.getD 0
    let downExpansion := e.downPercent.getD 0
    ((jsRound (trackRegion.width * (1 + leftExpansion + rightExpansion)) : ℚ),
     (jsRound (trackRegion.height * (1 + upExpansion + downExpansion)) : ℚ))

/-- The pixel-point part of `RenderService.formatResult` (`src/render.ts`
lines 302 to 349): recompute each GPS point with `latLngToPixel` in the
frame spanned by the projection result's `pixelBounds.maxX` and
`pixelBounds.maxY`, then scale by `finalWidth / pixelBounds.maxX` and
`finalHeight / pixelBounds.maxY`.  The image resize and base64 encoding
belong to the drawing collaborator and are not modelled. -/
def RenderService.formatResultPoints (R : RealOps) (projectionResult : ProjectionResult)
    (trackRegion : TrackRegion) (expansionRegion : Option ExpansionRegion)
    (zoom : ℕ) : List PixelPoint :=
  let dims := RenderService.calculateOutputDimensions trackRegion expansionRegion
  let scaleX := dims.1 / projectionResult.pixelBounds.maxX
  let scaleY := dims.2 / projectionResult.pixelBounds.maxY
  projectionResult.gpsPoints.map (fun point =>
    let originalPixel := MercatorUtil.latLngToPixelAtZoom R point projectionResult.bounds
      projectionResult.pixelBounds.maxX projectionResult.pixelBounds.maxY zoom
    ⟨originalPixel.x * scaleX, originalPixel.y * scaleY⟩)

/-- The output-formatter point mapping exactly as the spec sentence
states it: take the point's already-projected coordinate in the cropped
raster frame `croppedW × croppedH` and multiply it by the scale factors
`(finalW / croppedW, finalH / croppedH)`. -/
def specFormatPoints (R : RealOps) (gpsPoints : List LatLng) (bounds : GeoBounds)
    (croppedW croppedH finalW finalH : ℚ) (zoom : ℕ) : List PixelPoint :=
  gpsPoints.map (fun point =>
    let projected := MercatorUtil.latLngToPixelAtZoom R point bounds croppedW croppedH zoom
    ⟨projected.x * (finalW / croppedW), projected.y * (finalH / croppedH)⟩)

/-- Scale a coordinate to 1e-5 precision: `Math.round(value * 1e5)` in
`PolylineUtil.encode`. -/
def e5 (q : ℚ) : ℤ := jsRound (q * 100000)

/-- The zig-zag step of `PolylineUtil.encodeValue`:
`value < 0 ? ~(value << 1) : (value << 1)`.  JS `<<` coerces to int32
(`toInt32`), and `~x` is exactly `-x - 1`. -/
def zigzag (value : ℤ) : ℤ :=
  if value < 0 then -(toInt32 (2 * value)) - 1 else toInt32 (2 * value)

/-- The chunk loop of `PolylineUtil.encodeValue`: emit five bits at a
time with a continuation bit, each chunk offset by 63.  The loop body
runs `while value >= 0x20` with `value >>= 5`; for the nonnegative
values produced by `zigzag` in the int32-exact regime the shift is
division by 32. -/
def encodeChunks (value : ℕ) : List ℕ :=
  if h : 32 ≤ value then ((32 ||| value % 32) + 63) :: encodeChunks (value / 32)
  else [value + 63]
termination_by value
decreasing_by exact Nat.div_lt_self (by omega) (by omega)

/-- `PolylineUtil.encodeValue` (`src/utils/polyline.ts` lines 160 to
171): zig-zag then chunk.  `Int.toNat` is exact for the nonnegative
zig-zag outputs of the int32-exact regime, the only one reachable from
valid GPS coordinates. -/
def PolylineUtil.encodeValue (value : ℤ) : List ℕ :=
  encodeChunks (zigzag value).toNat

/-- The delta loop of `PolylineUtil.encode` (`src/utils/polyline.ts`
lines 131 to 155), with the previous scaled coordinates threaded as
state; output is the list of character codes. -/
def encodeLoop : List LatLng → ℤ → ℤ → List ℕ
  | [], _, _ => []
  | point :: rest, prevLat, prevLng =>
    let lat := e5 point.lat
    let lng := e5 point.lng
    PolylineUtil.encodeValue (lat - prevLat) ++ PolylineUtil.encodeValue (lng - prevLng) ++
      encodeLoop rest lat lng

/-- `PolylineUtil.encode`: the delta loop started at `(0, 0)`; an empty
list encodes to the empty string. -/
def PolylineUtil.encode (points : List LatLng) : List ℕ :=
  encodeLoop points 0 0

/-- The inner do/while of `PolylineUtil.decode`: read chunks
`b = charCode - 63`, accumulate `result |= (b & 0x1f) << shift` while
`b >= 0x20`.  Returns the accumulated value and the remaining input;
`none` models the out-of-input read that JS would perform on malformed
input. -/
def decodeValue : List ℕ → ℕ → ℕ → Option (ℕ × List ℕ)
  | [], _, _ => none
  | c :: rest, shift, result =>
    let b := c - 63
    let acc := result ||| (b &&& 31) <<< shift
    if 32 ≤ b then decodeValue rest (shift + 5) acc else some (acc, rest)

/-- The unzigzag step of `PolylineUtil.decode`:
`(result & 1) !== 0 ? ~(result >> 1) : (result >> 1)`. -/
def unzigzag (result : ℕ) : ℤ :=
  if result &&& 1 ≠ 0 then -((result >>> 1 : ℕ) : ℤ) - 1 else ((result >>> 1 : ℕ) : ℤ)

/-- The outer while of `PolylineUtil.decode` (`src/utils/polyline.ts`
lines 85 to 126): alternately decode a latitude delta and a longitude
delta, accumulate, and emit `lat * 1e-5, lng * 1e-5`.  The JS loop runs
while the index is inside the string; since every iteration consumes at
least one character, a fuel of the input length makes the recursion
structural without changing the computed value. -/
def decodeLoop : ℕ → List ℕ → ℤ → ℤ → Option (List LatLng)
  | _, [], _, _ => some []
  | 0, _ :: _, _, _ => none
  | fuel + 1, c :: rest0, lat, lng =>
    match decodeValue (c :: rest0) 0 0 with
    | none => none
    | some (r1, rest1) =>
      let lat' := lat + unzigzag r1
      match decodeValue rest1 0 0 with
      | none => none
      | some (r2, rest2) =>
        let lng' := lng + unzigzag r2
        (decodeLoop fuel rest2 lat' lng').map
          (fun points => (⟨(lat' : ℚ) * (1 / 100000), (lng' : ℚ) * (1 / 100000)⟩ : LatLng) :: points)

/-- `PolylineUtil.decode`: the decode loop started at `(0, 0)` with
enough fuel for the whole input. -/
def PolylineUtil.decode (cs : List ℕ) : Option (List LatLng) :=
  decodeLoop cs.length cs 0 0

/-- The x component of `MercatorUtil.latLngToMeters` as a function of
the longitude alone. -/
def xMeters (R : RealOps) (lng : ℚ) : ℚ := lng * ORIGIN_SHIFT R / 180

/-- The y component of `MercatorUtil.latLngToMeters` as a function of
the latitude alone. -/
def yMeters (R : RealOps) (lat : ℚ) : ℚ :=
  R.log (R.tan ((90 + lat) * R.pi / 360)) / (R.pi / 180) * ORIGIN_SHIFT R / 180

/-- Meter-space width of a bounds, `maxPoint.x - minPoint.x` in
`GeoUtil.adjustBoundsToAspectRatio`. -/
def widthMeters (R : RealOps) (b : GeoBounds) : ℚ :=
  xMeters R b.maxLng - xMeters R b.minLng

/-- Meter-space height of a bounds, `maxPoint.y - minPoint.y` in
`GeoUtil.adjustBoundsToAspectRatio`. -/
def heightMeters (R : RealOps) (b : GeoBounds) : ℚ :=
  yMeters R b.maxLat - yMeters R b.minLat

/-- A concrete rational model of the transcendental operations, used to
instantiate theorems at concrete inputs: `pi = 1` and every function the
identity.  Under this model the Mercator forward and inverse maps are
mutually inverse rational functions. -/
def idOps : RealOps := ⟨1, id, id, id, id, id, id, id⟩

/-- C10: `GeoUtil.calculateBounds` accepts a one-element list and returns
the degenerate bounds with `minLat = maxLat` and `minLng = maxLng`, and
`GeoUtil.expandBufferBounds` with any percentage leaves such bounds
unchanged because the average range is zero. -/
theorem single_point_bounds_degenerate (p : LatLng) (percentage : ℚ) :
    GeoUtil.calculateBounds [p] = .ok ⟨p.lat, p.lat, p.lng, p.lng⟩ ∧
    GeoUtil.expandBufferBounds ⟨p.lat, p.lat, p.lng, p.lng⟩ percentage =
      ⟨p.lat, p.lat, p.lng, p.lng⟩ := by
  refine ⟨by simp [GeoUtil.calculateBounds], ?_⟩
  simp [GeoUtil.expandBufferBounds]

/-- C1 counterexample: an `ExpansionRegion` with all four directions set
to `1/2` (each inside `[0, 1]`) is rejected by
`ValidationUtil.validateExpansionRegion`, and therefore
`GeoUtil.applyExpansionRegion` also fails on it, contrary to the claim
that validation accepts all four directions set simultaneously. -/
theorem expansion_all_four_rejected :
    ValidationUtil.validateExpansionRegion
        ⟨some (1 / 2), some (1 / 2), some (1 / 2), some (1 / 2)⟩ =
      .error "ExpansionRegion can have at most one direction set" ∧
    GeoUtil.applyExpansionRegion ⟨0, 1, 0, 1⟩
        (some ⟨some (1 / 2), some (1 / 2), some (1 / 2), some (1 / 2)⟩) =
      .error "ExpansionRegion can have at most one direction set" := by
  constructor
  · simp [ValidationUtil.validateExpansionRegion, validRange, setDirections]
    norm_num
  · simp [GeoUtil.applyExpansionRegion, ValidationUtil.validateExpansionRegion,
      validRange, setDirections]
    norm_num

/-- C1 amended: validation accepts an `ExpansionRegion` precisely when
every set percentage lies in `[0, 1]` and at most one of the four
directions is set; `GeoUtil.applyExpansionRegion` then grows the bounds
per the additive formulas, each omitted direction contributing zero. -/
theorem expansion_single_direction_applies (b : GeoBounds) (e : ExpansionRegion)
    (hup : validRange e.upPercent = true)
    (hdown : validRange e.downPercent = true)
    (hleft : validRange e.leftPercent = true)
    (hright : validRange e.rightPercent = true)
    (hcount : setDirections e ≤ 1) :
    ValidationUtil.validateExpansionRegion e = .ok () ∧
    GeoUtil.applyExpansionRegion b (some e) =
      .ok ⟨b.minLat - (b.maxLat - b.minLat) * e.downPercent.getD 0,
           b.maxLat + (b.maxLat - b.minLat) * e.upPercent.getD 0,
           b.minLng - (b.maxLng - b.minLng) * e.leftPercent.getD 0,
           b.maxLng + (b.maxLng - b.minLng) * e.rightPercent.getD 0⟩ := by
  have hvalid : ValidationUtil.validateExpansionRegion e = .ok () := by
    simp [ValidationUtil.validateExpansionRegion, hup, hdown, hleft, hright,
      Nat.not_lt.mpr hcount]
  refine ⟨hvalid, ?_⟩
  simp only [GeoUtil.applyExpansionRegion, hvalid]
  have hfield : ∀ (v : Option ℚ) (r : ℚ),
      (match v with
        | some x => if x = 0 then 0 else r * x
        | none => 0) = r * v.getD 0 := by
    intro v r
    cases v with
    | none => simp
    | some x =>
      by_cases hx : x = 0 <;> simp [hx]
  simp only [hfield]

/-- C1 witness: a single-direction expansion of one on a concrete
bounds, accepted and applied. -/
theorem expansion_single_direction_applies_witness :
    ValidationUtil.validateExpansionRegion ⟨some 1, none, none, none⟩ = .ok () ∧
    GeoUtil.applyExpansionRegion ⟨0, 1, 0, 1⟩ (some ⟨some 1, none, none, none⟩) =
      .ok ⟨0 - (1 - 0) * ((none : Option ℚ).getD 0),
           1 + (1 - 0) * ((some 1 : Option ℚ).getD 0),
           0 - (1 - 0) * ((none : Option ℚ).getD 0),
           1 + (1 - 0) * ((none : Option ℚ).getD 0)⟩ :=
  expansion_single_direction_applies ⟨0, 1, 0, 1⟩ ⟨some 1, none, none, none⟩
    (by decide) (by decide) (by decide) (by decide) (by decide)

/-- C6 counterexample: on a target rectangle with zero latitude span,
`MercatorUtil.geoBoundsToPixelBounds` does not fail at all; it returns a
(degenerate) pixel rectangle.  There is no zero-area check and no
`InvalidBounds` error anywhere in the function. -/
theorem geoBoundsToPixelBounds_zero_area_returns :
    MercatorUtil.geoBoundsToPixelBounds ⟨1, 1, 0, 1⟩ ⟨0, 2, 0, 2⟩ 100 100 =
      ⟨0, 50, 50, 50⟩ := by
  simp [MercatorUtil.geoBoundsToPixelBounds]
  norm_num

/-- C6 amended: both variants of `geoBoundsToPixelBounds` floor the min
edge and ceil the max edge, so the returned pixel rectangle contains the
exact real-valued image of the target rectangle; the function is total
and never raises an error (zero-area inputs are only caught downstream
by `StitchingService.validatePixelBounds`). -/
theorem geoBoundsToPixelBounds_contains_exact (R : RealOps)
    (target image : GeoBounds) (W H : ℚ) (zoom : ℕ) :
    ((MercatorUtil.geoBoundsToPixelBounds target image W H).minX ≤
        (target.minLng - image.minLng) / (image.maxLng - image.minLng) * W ∧
      (target.maxLng - image.minLng) / (image.maxLng - image.minLng) * W ≤
        (MercatorUtil.geoBoundsToPixelBounds target image W H).maxX ∧
      (MercatorUtil.geoBoundsToPixelBounds target image W H).minY ≤
        (image.maxLat - target.maxLat) / (image.maxLat - image.minLat) * H ∧
      (image.maxLat - target.minLat) / (image.maxLat - image.minLat) * H ≤
        (MercatorUtil.geoBoundsToPixelBounds target image W H).maxY) ∧
    ((MercatorUtil.geoBoundsToPixelBoundsAtZoom R target image W H zoom).minX ≤
        (mercPixelX target.minLng zoom - mercPixelX image.minLng zoom) * W /
          (mercPixelX image.maxLng zoom - mercPixelX image.minLng zoom) ∧
      (mercPixelX target.maxLng zoom - mercPixelX image.minLng zoom) * W /
          (mercPixelX image.maxLng zoom - mercPixelX image.minLng zoom) ≤
        (MercatorUtil.geoBoundsToPixelBoundsAtZoom R target image W H zoom).maxX ∧
      (MercatorUtil.geoBoundsToPixelBoundsAtZoom R target image W H zoom).minY ≤
        (mercPixelY R target.maxLat zoom - mercPixelY R image.maxLat zoom) * H /
          (mercPixelY R image.minLat zoom - mercPixelY R image.maxLat zoom) ∧
      (mercPixelY R target.minLat zoom - mercPixelY R image.maxLat zoom) * H /
          (mercPixelY R image.minLat zoom - mercPixelY R image.maxLat zoom) ≤
        (MercatorUtil.geoBoundsToPixelBoundsAtZoom R target image W H zoom).maxY) := by
  refine ⟨⟨?_, ?_, ?_, ?_⟩, ⟨?_, ?_, ?_, ?_⟩⟩ <;>
    simp only [MercatorUtil.geoBoundsToPixelBounds,
      MercatorUtil.geoBoundsToPixelBoundsAtZoom] <;>
    first
      | exact Int.floor_le _
      | exact Int.le_ceil _

/-- C2: evaluation at the failing input.  With a fetcher that succeeds
on tile `(0,0)` but fails on tile `(1,0)`, the sibling tile's
`fetchTile` succeeds, yet `fetchTileGrid` rejects the whole grid with a
wrapped error instead of substituting a placeholder. -/
theorem fetchTileGrid_single_failure_rejects :
    TileService.fetchTile
        (fun coord => if coord.x = 0 then .ok [1] else .error "network error")
        idOps ⟨0, 0, 1⟩ =
      .ok ⟨⟨0, 0, 1⟩, [1], MercatorUtil.tileToBounds idOps 0 0 1⟩ ∧
    TileService.fetchTileGrid
        (fun coord => if coord.x = 0 then .ok [1] else .error "network error")
        idOps
        ⟨[⟨⟨0, 0, 1⟩, [], MercatorUtil.tileToBounds idOps 0 0 1⟩,
          ⟨⟨1, 0, 1⟩, [], MercatorUtil.tileToBounds idOps 1 0 1⟩],
         ⟨0, 1, 0, 1⟩, ⟨0, 1, 0, 1⟩, 1⟩ =
      .error "Failed to fetch tile grid: Failed to fetch tile: network error" := by
  constructor
  · simp [TileService.fetchTile]
  · simp [TileService.fetchTileGrid, TileService.fetchTile, List.mapM]
    rfl

/-- C7: `TileService.calculateOptimalZoom` equals the floor of the
smaller of the longitude-based and the Mercator-Y latitude-based zoom
candidates, clamped into `[1, 18]`; it never exceeds the unclamped floor
pushed up to the lower clamp, and the floor never rounds up. -/
theorem calculateOptimalZoom_floor_min_clamp (R : RealOps) (bounds : GeoBounds)
    (vw vh : ℚ) :
    TileService.calculateOptimalZoom R bounds vw vh =
      min (max ⌊min (zoomForLng R bounds vw) (zoomForLat R bounds vh)⌋ 1) 18 ∧
    1 ≤ TileService.calculateOptimalZoom R bounds vw vh ∧
    TileService.calculateOptimalZoom R bounds vw vh ≤ 18 ∧
    TileService.calculateOptimalZoom R bounds vw vh ≤
      max 1 ⌊min (zoomForLng R bounds vw) (zoomForLat R bounds vh)⌋ ∧
    (⌊min (zoomForLng R bounds vw) (zoomForLat R bounds vh)⌋ : ℚ) ≤
      min (zoomForLng R bounds vw) (zoomForLat R bounds vh) := by
  refine ⟨rfl, ?_, ?_, ?_, Int.floor_le _⟩ <;>
    simp only [TileService.calculateOptimalZoom] <;> omega

/-- A left fold of `min` lands on the initial value or a list element,
is below the initial value, and is below every element. -/
theorem foldl_min_spec (l : List ℚ) :
    ∀ init : ℚ, l.foldl min init ∈ init :: l ∧ l.foldl min init ≤ init ∧
      ∀ q ∈ l, l.foldl min init ≤ q := by
  induction l with
  | nil => intro init; simp
  | cons a t ih =>
    intro init
    obtain ⟨hmem, hle, hall⟩ := ih (min init a)
    refine ⟨?_, ?_, ?_⟩
    · rcases List.mem_cons.mp hmem with h | h
      · rcases min_choice init a with hc | hc <;> rw [List.foldl_cons, h, hc] <;> simp
      · simp [List.foldl_cons, List.mem_cons.mpr (Or.inr (List.mem_cons.mpr (Or.inr h)))]
    · exact le_trans hle (min_le_left _ _)
    · intro q hq
      rcases List.mem_cons.mp hq with h | h
      · rw [List.foldl_cons, h]; exact le_trans hle (min_le_right _ _)
      · exact hall q h
/-- A left fold of `max` lands on the initial value or a list element,
is above the initial value, and is above every element. -/
theorem foldl_max_spec (l : List ℚ) :
    ∀ init : ℚ, l.foldl max init ∈ init :: l ∧ init ≤ l.foldl max init ∧
      ∀ q ∈ l, q ≤ l.foldl max init := by
  induction l with
  | nil => intro init; simp
  | cons a t ih =>
    intro init
    obtain ⟨hmem, hle, hall⟩ := ih (max init a)
    refine ⟨?_, ?_, ?_⟩
    · rcases List.mem_cons.mp hmem with h | h
      · rcases max_choice init a with hc | hc <;> rw [List.foldl_cons, h, hc] <;> simp
      · simp [List.foldl_cons, List.mem_cons.mpr (Or.inr (List.mem_cons.mpr (Or.inr h)))]
    · exact le_trans (le_max_left _ _) hle
    · intro q hq
      rcases List.mem_cons.mp hq with h | h
      · rw [List.foldl_cons, h]; exact le_trans (le_max_right _ _) hle
      · exact hall q h

/-- The fold of `GeoUtil.calculateBounds` decomposes componentwise into
four scalar folds. -/
theorem calcBounds_fold_components (l : List LatLng) :
    ∀ init : GeoBounds,
      l.foldl (fun b p =>
          (⟨min b.minLat p.lat, max b.maxLat p.lat,
            min b.minLng p.lng, max b.maxLng p.lng⟩ : GeoBounds)) init =
        ⟨(l.map LatLng.lat).foldl min init.minLat,
         (l.map LatLng.lat).foldl max init.maxLat,
         (l.map LatLng.lng).foldl min init.minLng,
         (l.map LatLng.lng).foldl max init.maxLng⟩ := by
  induction l with
  | nil => intro init; rfl
  | cons a t ih => intro init; simp [List.foldl_cons, ih]

/-- `GeoUtil.calculateBounds` on a nonempty list succeeds and returns
the tight box: every point lies inside, and each of the four edges is
attained by some point. -/
theorem calculateBounds_tight (p0 : LatLng) (rest : List LatLng) :
    ∃ b, GeoUtil.calculateBounds (p0 :: rest) = .ok b ∧
      (∀ p ∈ p0 :: rest,
        b.minLat ≤ p.lat ∧ p.lat ≤ b.maxLat ∧ b.minLng ≤ p.lng ∧ p.lng ≤ b.maxLng) ∧
      (∃ p ∈ p0 :: rest, p.lat = b.minLat) ∧ (∃ p ∈ p0 :: rest, p.lat = b.maxLat) ∧
      (∃ p ∈ p0 :: rest, p.lng = b.minLng) ∧ (∃ p ∈ p0 :: rest, p.lng = b.maxLng) := by
  obtain ⟨hminmem, _, hminall⟩ := foldl_min_spec ((p0 :: rest).map LatLng.lat) p0.lat
  obtain ⟨hmaxmem, _, hmaxall⟩ := foldl_max_spec ((p0 :: rest).map LatLng.lat) p0.lat
  obtain ⟨hgminmem, _, hgminall⟩ := foldl_min_spec ((p0 :: rest).map LatLng.lng) p0.lng
  obtain ⟨hgmaxmem, _, hgmaxall⟩ := foldl_max_spec ((p0 :: rest).map LatLng.lng) p0.lng
  refine ⟨_, rfl, ?_, ?_, ?_, ?_, ?_⟩ <;>
    simp only [GeoUtil.calculateBounds, calcBounds_fold_components]
  · intro p hp
    exact ⟨hminall _ (List.mem_map_of_mem _ hp), hmaxall _ (List.mem_map_of_mem _ hp),
      hgminall _ (List.mem_map_of_mem _ hp), hgmaxall _ (List.mem_map_of_mem _ hp)⟩
  · rcases List.mem_cons.mp hminmem with h | h
    · exact ⟨p0, List.mem_cons_self _ _, h.symm⟩
    · obtain ⟨p, hp, hpe⟩ := List.mem_map.mp h
      exact ⟨p, hp, hpe⟩
  · rcases List.mem_cons.mp hmaxmem with h | h
    · exact ⟨p0, List.mem_cons_self _ _, h.symm⟩
    · obtain ⟨p, hp, hpe⟩ := List.mem_map.mp h
      exact ⟨p, hp, hpe⟩
  · rcases List.mem_cons.mp hgminmem with h | h
    · exact ⟨p0, List.mem_cons_self _ _, h.symm⟩
    · obtain ⟨p, hp, hpe⟩ := List.mem_map.mp h
      exact ⟨p, hp, hpe⟩
  · rcases List.mem_cons.mp hgmaxmem with h | h
    · exact ⟨p0, List.mem_cons_self _ _, h.symm⟩
    · obtain ⟨p, hp, hpe⟩ := List.mem_map.mp h
      exact ⟨p, hp, hpe⟩

/-- C3: `BoundaryService.calculateBounds` applies exactly the four
ordered transforms.  `bound0` is the tight box of the points (and the
empty list fails), `bound1` buffers `bound0` by
`((latRange + lngRange) / 2) * 10 / 100` on all four edges, `bound2`
fits `bound1` to the track-region aspect ratio, `bound3` applies the
directional expansion last, and the returned final bounds equal
`bound3`. -/
theorem boundary_pipeline_four_transforms (R : RealOps) (gpsPoints : List LatLng)
    (trackRegion : TrackRegion) (expansionRegion : Option ExpansionRegion)
    (hne : gpsPoints ≠ [])
    (hval : ∀ e, expansionRegion = some e →
      ValidationUtil.validateExpansionRegion e = .ok ()) :
    (∃ r : BoundaryResult,
      BoundaryService.calculateBounds R gpsPoints trackRegion expansionRegion = .ok r ∧
      (∀ p ∈ gpsPoints, r.bound0.minLat ≤ p.lat ∧ p.lat ≤ r.bound0.maxLat ∧
        r.bound0.minLng ≤ p.lng ∧ p.lng ≤ r.bound0.maxLng) ∧
      ((∃ p ∈ gpsPoints, p.lat = r.bound0.minLat) ∧
       (∃ p ∈ gpsPoints, p.lat = r.bound0.maxLat) ∧
       (∃ p ∈ gpsPoints, p.lng = r.bound0.minLng) ∧
       (∃ p ∈ gpsPoints, p.lng = r.bound0.maxLng)) ∧
      r.bound1 =
        ⟨r.bound0.minLat -
            ((r.bound0.maxLat - r.bound0.minLat) + (r.bound0.maxLng - r.bound0.minLng)) / 2 * 10 / 100,
         r.bound0.maxLat +
            ((r.bound0.maxLat - r.bound0.minLat) + (r.bound0.maxLng - r.bound0.minLng)) / 2 * 10 / 100,
         r.bound0.minLng -
            ((r.bound0.maxLat - r.bound0.minLat) + (r.bound0.maxLng - r.bound0.minLng)) / 2 * 10 / 100,
         r.bound0.maxLng +
            ((r.bound0.maxLat - r.bound0.minLat) + (r.bound0.maxLng - r.bound0.minLng)) / 2 * 10 / 100⟩ ∧
      r.bound2 = GeoUtil.adjustBoundsToAspectRatio R r.bound1 trackRegion ∧
      GeoUtil.applyExpansionRegion r.bound2 expansionRegion = .ok r.bound3 ∧
      r.bounds = r.bound3) ∧
    BoundaryService.calculateBounds R [] trackRegion expansionRegion =
      .error "Cannot calculate bounds from empty GPS points" := by
  refine ⟨?_, rfl⟩
  match gpsPoints, hne with
  | p0 :: rest, _ =>
    obtain ⟨b0, hb0, hin, hat1, hat2, hat3, hat4⟩ := calculateBounds_tight p0 rest
    have happly : ∃ b3,
        GeoUtil.applyExpansionRegion
          (GeoUtil.adjustBoundsToAspectRatio R (GeoUtil.expandBufferBounds b0 10) trackRegion)
          expansionRegion = .ok b3 := by
      cases expansionRegion with
      | none => exact ⟨_, rfl⟩
      | some e =>
        simp only [GeoUtil.applyExpansionRegion, hval e rfl]
        exact ⟨_, rfl⟩
    obtain ⟨b3, hb3⟩ := happly
    refine ⟨⟨b3, b0, GeoUtil.expandBufferBounds b0 10,
      GeoUtil.adjustBoundsToAspectRatio R (GeoUtil.expandBufferBounds b0 10) trackRegion, b3⟩,
      ?_, hin, ⟨hat1, hat2, hat3, hat4⟩, rfl, rfl, hb3, rfl⟩
    simp only [BoundaryService.calculateBounds, hb0, hb3]

/-- C3 witness: the pipeline applied to a concrete two-point trajectory
with no expansion region. -/
theorem boundary_pipeline_four_transforms_witness :
    (([⟨0, 0⟩, ⟨10, 10⟩] : List LatLng) ≠ []) ∧
    ∃ r, BoundaryService.calculateBounds idOps [⟨0, 0⟩, ⟨10, 10⟩] ⟨1, 1⟩ none = .ok r ∧
      r.bounds = r.bound3 :=
  ⟨by simp,
   by
    obtain ⟨⟨r, hr, _, _, _, _, _, hfin⟩, _⟩ :=
      boundary_pipeline_four_transforms idOps [⟨0, 0⟩, ⟨10, 10⟩] ⟨1, 1⟩ none
        (by simp) (fun e h => nomatch h)
    exact ⟨r, hr, hfin⟩⟩

/-- Cancellation of the projection frame width against the scale
factor: projecting into a frame of width `W` and rescaling by `F / W`
gives the same value for every nonzero `W`. -/
theorem scale_frame_cancel (t d F W : ℚ) (hW : W ≠ 0) :
    t * W / d * (F / W) = t * F / d := by
  calc t * W / d * (F / W) = t * F / d * (W / W) := by ring
    _ = t * F / d := by rw [div_self hW, mul_one]

/-- C5: the output formatter computes the final dimensions as the track
region scaled by `(1 + left + right)` and `(1 + up + down)`, rounded to
the nearest integer, and its final pixel points equal the spec's
description: the point's projected coordinate in the cropped raster
frame multiplied by `(finalW / croppedW, finalH / croppedH)` — the
projection is homogeneous in the frame size, so the code's rescaling
from the trajectory-bounding-box frame yields exactly these values. -/
theorem formatResult_dims_and_scaled_points (R : RealOps) (pr : ProjectionResult)
    (trackRegion : TrackRegion) (e : ExpansionRegion) (zoom : ℕ)
    (croppedW croppedH : ℚ)
    (hcw : croppedW ≠ 0) (hch : croppedH ≠ 0)
    (hbx : pr.pixelBounds.maxX ≠ 0) (hby : pr.pixelBounds.maxY ≠ 0) :
    RenderService.calculateOutputDimensions trackRegion (some e) =
      ((jsRound (trackRegion.width * (1 + e.leftPercent.getD 0 + e.rightPercent.getD 0)) : ℚ),
       (jsRound (trackRegion.height * (1 + e.upPercent.getD 0 + e.downPercent.getD 0)) : ℚ)) ∧
    RenderService.formatResultPoints R pr trackRegion (some e) zoom =
      specFormatPoints R pr.gpsPoints pr.bounds croppedW croppedH
        (RenderService.calculateOutputDimensions trackRegion (some e)).1
        (RenderService.calculateOutputDimensions trackRegion (some e)).2 zoom := by
  refine ⟨rfl, ?_⟩
  simp only [RenderService.formatResultPoints, specFormatPoints,
    MercatorUtil.latLngToPixelAtZoom]
  refine List.map_congr_left (fun p hp => ?_)
  have hx := scale_frame_cancel
    (mercPixelX p.lng zoom - mercPixelX pr.bounds.minLng zoom)
    (mercPixelX pr.bounds.maxLng zoom - mercPixelX pr.bounds.minLng zoom)
    (RenderService.calculateOutputDimensions trackRegion (some e)).1
    pr.pixelBounds.maxX hbx
  have hx2 := scale_frame_cancel
    (mercPixelX p.lng zoom - mercPixelX pr.bounds.minLng zoom)
    (mercPixelX pr.bounds.maxLng zoom - mercPixelX pr.bounds.minLng zoom)
    (RenderService.calculateOutputDimensions trackRegion (some e)).1
    croppedW hcw
  have hy := scale_frame_cancel
    (mercPixelY R p.lat zoom - mercPixelY R pr.bounds.maxLat zoom)
    (mercPixelY R pr.bounds.minLat zoom - mercPixelY R pr.bounds.maxLat zoom)
    (RenderService.calculateOutputDimensions trackRegion (some e)).2
    pr.pixelBounds.maxY hby
  have hy2 := scale_frame_cancel
    (mercPixelY R p.lat zoom - mercPixelY R pr.bounds.maxLat zoom)
    (mercPixelY R pr.bounds.minLat zoom - mercPixelY R pr.bounds.maxLat zoom)
    (RenderService.calculateOutputDimensions trackRegion (some e)).2
    croppedH hch
  simp only [PixelPoint.mk.injEq]
  exact ⟨hx.trans hx2.symm, hy.trans hy2.symm⟩

/-- C5 witness: a concrete one-point projection result, rescaled from a
trajectory bounding box of 50 pixels into a 100 by 100 output. -/
theorem formatResult_dims_and_scaled_points_witness :
    ((100 : ℚ) ≠ 0) ∧ ((50 : ℚ) ≠ 0) ∧
    RenderService.formatResultPoints idOps
        ⟨[⟨45, 45⟩], ⟨0, 90, 0, 90⟩, ⟨0, 50, 0, 50⟩⟩ ⟨100, 100⟩
        (some ⟨none, none, none, none⟩) 1 =
      specFormatPoints idOps [⟨45, 45⟩] ⟨0, 90, 0, 90⟩ 100 100
        (RenderService.calculateOutputDimensions ⟨100, 100⟩ (some ⟨none, none, none, none⟩)).1
        (RenderService.calculateOutputDimensions ⟨100, 100⟩ (some ⟨none, none, none, none⟩)).2 1 :=
  ⟨by decide, by decide,
   (formatResult_dims_and_scaled_points idOps
      ⟨[⟨45, 45⟩], ⟨0, 90, 0, 90⟩, ⟨0, 50, 0, 50⟩⟩ ⟨100, 100⟩
      ⟨none, none, none, none⟩ 1 100 100
      (by decide) (by decide) (by decide) (by decide)).2⟩

/-- `ORIGIN_SHIFT` is positive whenever the model's `pi` is. -/
theorem ORIGIN_SHIFT_pos (R : RealOps) (hpi : 0 < R.pi) : 0 < ORIGIN_SHIFT R := by
  have h : ORIGIN_SHIFT R = R.pi * 6378137 := by unfold ORIGIN_SHIFT; ring
  rw [h]
  exact mul_pos hpi (by norm_num)

/-- Closed form of `GeoUtil.adjustBoundsToAspectRatio` in terms of
`widthMeters`, `heightMeters`, `xMeters` and `yMeters`. -/
theorem adjustBounds_eq (R : RealOps) (b : GeoBounds) (tr : TrackRegion) :
    GeoUtil.adjustBoundsToAspectRatio R b tr =
      if widthMeters R b / heightMeters R b < tr.width / tr.height then
        ⟨b.minLat, b.maxLat,
         (xMeters R ((b.minLng + b.maxLng) / 2) -
            heightMeters R b * (tr.width / tr.height) / 2) / ORIGIN_SHIFT R * 180,
         (xMeters R ((b.minLng + b.maxLng) / 2) +
            heightMeters R b * (tr.width / tr.height) / 2) / ORIGIN_SHIFT R * 180⟩
      else
        ⟨(MercatorUtil.metersToLatLng R (xMeters R b.minLng)
            (yMeters R ((b.minLat + b.maxLat) / 2) -
              widthMeters R b / (tr.width / tr.height) / 2)).lat,
         (MercatorUtil.metersToLatLng R (xMeters R b.maxLng)
            (yMeters R ((b.minLat + b.maxLat) / 2) +
              widthMeters R b / (tr.width / tr.height) / 2)).lat,
         b.minLng, b.maxLng⟩ := rfl

/-- C8: for a non-degenerate bounds and a positive track region,
`GeoUtil.adjustBoundsToAspectRatio` grows only the deficient axis,
symmetrically about the bounds' center in Mercator meter space, leaves
the other axis's coordinates unchanged, and the resulting meter-space
width/height ratio equals `trackRegion.width / trackRegion.height`
exactly (hence within the 1e-6 tolerance).  The hypotheses state the
analytic facts the proof needs about the transcendental model: `pi` is
positive, the Mercator y of the inverse projection round-trips, and the
Mercator y respects the given latitude order. -/
theorem adjustBounds_aspect_ratio_exact (R : RealOps) (b : GeoBounds) (tr : TrackRegion)
    (hinv : ∀ x y : ℚ, yMeters R ((MercatorUtil.metersToLatLng R x y).lat) = y)
    (hpi : 0 < R.pi)
    (hh : yMeters R b.minLat < yMeters R b.maxLat)
    (hlng : b.minLng < b.maxLng)
    (hw : 0 < tr.width) (hht : 0 < tr.height) :
    widthMeters R (GeoUtil.adjustBoundsToAspectRatio R b tr) * tr.height =
      tr.width * heightMeters R (GeoUtil.adjustBoundsToAspectRatio R b tr) ∧
    0 < heightMeters R (GeoUtil.adjustBoundsToAspectRatio R b tr) ∧
    widthMeters R b ≤ widthMeters R (GeoUtil.adjustBoundsToAspectRatio R b tr) ∧
    heightMeters R b ≤ heightMeters R (GeoUtil.adjustBoundsToAspectRatio R b tr) ∧
    (((GeoUtil.adjustBoundsToAspectRatio R b tr).minLat = b.minLat ∧
      (GeoUtil.adjustBoundsToAspectRatio R b tr).maxLat = b.maxLat ∧
      xMeters R (GeoUtil.adjustBoundsToAspectRatio R b tr).minLng +
        xMeters R (GeoUtil.adjustBoundsToAspectRatio R b tr).maxLng =
        2 * xMeters R ((b.minLng + b.maxLng) / 2)) ∨
     ((GeoUtil.adjustBoundsToAspectRatio R b tr).minLng = b.minLng ∧
      (GeoUtil.adjustBoundsToAspectRatio R b tr).maxLng = b.maxLng ∧
      yMeters R (GeoUtil.adjustBoundsToAspectRatio R b tr).minLat +
        yMeters R (GeoUtil.adjustBoundsToAspectRatio R b tr).maxLat =
        2 * yMeters R ((b.minLat + b.maxLat) / 2))) ∧
    |widthMeters R (GeoUtil.adjustBoundsToAspectRatio R b tr) /
        heightMeters R (GeoUtil.adjustBoundsToAspectRatio R b tr) -
      tr.width / tr.height| < 1 / 1000000 := by
  have hOS : 0 < ORIGIN_SHIFT R := ORIGIN_SHIFT_pos R hpi
  have hM0 : 0 < heightMeters R b := sub_pos.mpr hh
  have hwM0 : 0 < widthMeters R b := by
    have : widthMeters R b = (b.maxLng - b.minLng) * (ORIGIN_SHIFT R / 180) := by
      unfold widthMeters xMeters; ring
    rw [this]
    exact mul_pos (sub_pos.mpr hlng) (by positivity)
  have ht0 : 0 < tr.width / tr.height := div_pos hw hht
  rw [adjustBounds_eq]
  by_cases hc : widthMeters R b / heightMeters R b < tr.width / tr.height
  · rw [if_pos hc]
    have hwM : widthMeters R
        (⟨b.minLat, b.maxLat,
          (xMeters R ((b.minLng + b.maxLng) / 2) -
            heightMeters R b * (tr.width / tr.height) / 2) / ORIGIN_SHIFT R * 180,
          (xMeters R ((b.minLng + b.maxLng) / 2) +
            heightMeters R b * (tr.width / tr.height) / 2) / ORIGIN_SHIFT R * 180⟩ : GeoBounds) =
        heightMeters R b * (tr.width / tr.height) := by
      unfold widthMeters xMeters
      field_simp
      ring
    have hhM : heightMeters R
        (⟨b.minLat, b.maxLat,
          (xMeters R ((b.minLng + b.maxLng) / 2) -
            heightMeters R b * (tr.width / tr.height) / 2) / ORIGIN_SHIFT R * 180,
          (xMeters R ((b.minLng + b.maxLng) / 2) +
            heightMeters R b * (tr.width / tr.height) / 2) / ORIGIN_SHIFT R * 180⟩ : GeoBounds) =
        heightMeters R b := rfl
    refine ⟨?_, ?_, ?_, ?_, ?_, ?_⟩
    · rw [hwM, hhM]
      field_simp
      ring
    · rw [hhM]; exact hM0
    · rw [hwM]
      exact le_of_lt ((div_lt_iff hM0).mp hc |>.trans_eq (mul_comm _ _))
    · rw [hhM]
    · refine Or.inl ⟨rfl, rfl, ?_⟩
      unfold xMeters
      field_simp
      ring
    · rw [hwM, hhM, mul_comm, mul_div_assoc, div_self (ne_of_gt hM0), mul_one,
        sub_self, abs_zero]
      norm_num
  · rw [if_neg hc]
    have hyMin : yMeters R
        ((MercatorUtil.metersToLatLng R (xMeters R b.minLng)
          (yMeters R ((b.minLat + b.maxLat) / 2) -
            widthMeters R b / (tr.width / tr.height) / 2)).lat) =
        yMeters R ((b.minLat + b.maxLat) / 2) -
          widthMeters R b / (tr.width / tr.height) / 2 := hinv _ _
    have hyMax : yMeters R
        ((MercatorUtil.metersToLatLng R (xMeters R b.maxLng)
          (yMeters R ((b.minLat + b.maxLat) / 2) +
            widthMeters R b / (tr.width / tr.height) / 2)).lat) =
        yMeters R ((b.minLat + b.maxLat) / 2) +
          widthMeters R b / (tr.width / tr.height) / 2 := hinv _ _
    have hhM : heightMeters R
        (⟨(MercatorUtil.metersToLatLng R (xMeters R b.minLng)
            (yMeters R ((b.minLat + b.maxLat) / 2) -
              widthMeters R b / (tr.width / tr.height) / 2)).lat,
          (MercatorUtil.metersToLatLng R (xMeters R b.maxLng)
            (yMeters R ((b.minLat + b.maxLat) / 2) +
              widthMeters R b / (tr.width / tr.height) / 2)).lat,
          b.minLng, b.maxLng⟩ : GeoBounds) =
        widthMeters R b / (tr.width / tr.height) := by
      unfold heightMeters
      dsimp only
      rw [hyMin, hyMax]
      ring
    have hwM : widthMeters R
        (⟨(MercatorUtil.metersToLatLng R (xMeters R b.minLng)
            (yMeters R ((b.minLat + b.maxLat) / 2) -
              widthMeters R b / (tr.width / tr.height) / 2)).lat,
          (MercatorUtil.metersToLatLng R (xMeters R b.maxLng)
            (yMeters R ((b.minLat + b.maxLat) / 2) +
              widthMeters R b / (tr.width / tr.height) / 2)).lat,
          b.minLng, b.maxLng⟩ : GeoBounds) =
        widthMeters R b := rfl
    have hnH0 : 0 < widthMeters R b / (tr.width / tr.height) := div_pos hwM0 ht0
    refine ⟨?_, ?_, ?_, ?_, ?_, ?_⟩
    · rw [hwM, hhM]
      field_simp
    · rw [hhM]; exact hnH0
    · rw [hwM]
    · rw [hhM]
      have hle : tr.width / tr.height ≤ widthMeters R b / heightMeters R b := le_of_not_lt hc
      have h1 : tr.width / tr.height * heightMeters R b ≤ widthMeters R b :=
        (le_div_iff hM0).mp hle
      rw [le_div_iff ht0]
      calc heightMeters R b * (tr.width / tr.height)
          = tr.width / tr.height * heightMeters R b := by ring
        _ ≤ widthMeters R b := h1
    · refine Or.inr ⟨rfl, rfl, ?_⟩
      dsimp only
      rw [hyMin, hyMax]
      ring
    · rw [hwM, hhM, div_div_eq_mul_div, mul_comm, mul_div_assoc,
        div_self (ne_of_gt hwM0), mul_one, sub_self, abs_zero]
      norm_num

/-- In the identity model the Mercator y coordinate of the inverse
projection round-trips exactly. -/
theorem idOps_yMeters_roundtrip :
    ∀ x y : ℚ, yMeters idOps ((MercatorUtil.metersToLatLng idOps x y).lat) = y := by
  intro x y
  simp only [yMeters, MercatorUtil.metersToLatLng, idOps, ORIGIN_SHIFT, id]
  field_simp
  ring

/-- C8 witness: a concrete 10-degree square bounds adjusted to a 2 by 1
track region in the identity model. -/
theorem adjustBounds_aspect_ratio_exact_witness :
    yMeters idOps (0 : ℚ) < yMeters idOps 10 ∧
    |widthMeters idOps (GeoUtil.adjustBoundsToAspectRatio idOps ⟨0, 10, 0, 10⟩ ⟨2, 1⟩) /
        heightMeters idOps (GeoUtil.adjustBoundsToAspectRatio idOps ⟨0, 10, 0, 10⟩ ⟨2, 1⟩) -
      (2 : ℚ) / 1| < 1 / 1000000 :=
  ⟨by norm_num [yMeters, idOps, ORIGIN_SHIFT],
   (adjustBounds_aspect_ratio_exact idOps ⟨0, 10, 0, 10⟩ ⟨2, 1⟩ idOps_yMeters_roundtrip
      (by norm_num [idOps]) (by norm_num [yMeters, idOps, ORIGIN_SHIFT]) (by norm_num)
      (by norm_num) (by norm_num)).2.2.2.2.2⟩

/-- The tile index of a longitude maps back to a tile edge at or west of
that longitude. -/
theorem tile_x_lower (q n : ℚ) (hn : 0 < n) :
    (⌊q / 360 * n⌋ : ℚ) / n * 360 ≤ q := by
  have h : (⌊q / 360 * n⌋ : ℚ) ≤ q / 360 * n := Int.floor_le _
  have h2 : (⌊q / 360 * n⌋ : ℚ) / n * 360 ≤ q / 360 * n / n * 360 := by gcongr
  calc (⌊q / 360 * n⌋ : ℚ) / n * 360 ≤ q / 360 * n / n * 360 := h2
    _ = q := by field_simp; ring

/-- The eastern edge of a longitude's tile lies strictly east of it. -/
theorem tile_x_upper (q n : ℚ) (hn : 0 < n) :
    q < ((⌊q / 360 * n⌋ : ℚ) + 1) / n * 360 := by
  have h : q / 360 * n < (⌊q / 360 * n⌋ : ℚ) + 1 := Int.lt_floor_add_one _
  have h2 : q / 360 * n / n * 360 < ((⌊q / 360 * n⌋ : ℚ) + 1) / n * 360 := by gcongr
  calc q = q / 360 * n / n * 360 := by field_simp; ring
    _ < ((⌊q / 360 * n⌋ : ℚ) + 1) / n * 360 := h2

/-- The tile row of a normalized Mercator latitude brackets it:
`1 - 2*(y+1)/n < m ≤ 1 - 2*y/n` for `y = ⌊(1-m)/2*n⌋`. -/
theorem tile_y_brackets (m n : ℚ) (hn : 0 < n) :
    1 - 2 * ((⌊(1 - m) / 2 * n⌋ : ℚ) + 1) / n < m ∧
    m ≤ 1 - 2 * (⌊(1 - m) / 2 * n⌋ : ℚ) / n := by
  have h1 : (⌊(1 - m) / 2 * n⌋ : ℚ) ≤ (1 - m) / 2 * n := Int.floor_le _
  have h2 : (1 - m) / 2 * n < (⌊(1 - m) / 2 * n⌋ : ℚ) + 1 := Int.lt_floor_add_one _
  constructor
  · have h2' : (1 - m) * n < 2 * ((⌊(1 - m) / 2 * n⌋ : ℚ) + 1) := by nlinarith
    have h2d := (lt_div_iff hn).mpr h2'
    linarith
  · have h1' : 2 * (⌊(1 - m) / 2 * n⌋ : ℚ) ≤ (1 - m) * n := by nlinarith
    have h1d := (div_le_iff hn).mpr h1'
    linarith

/-- When the image rectangle contains the target rectangle (strictly on
the east and south edges) and the target is non-degenerate, the
floor/ceil crop rectangle of `geoBoundsToPixelBoundsAtZoom` lies inside
`[0, W] × [0, H]`, is non-degenerate, and passes
`StitchingService.validatePixelBounds`. -/
theorem cropPixelBounds_valid (R : RealOps) (hmono : StrictMono (mercNorm R))
    (target image : GeoBounds) (zoom : ℕ) (W H : ℤ) (hW : 0 < W) (hH : 0 < H)
    (h1 : image.minLng ≤ target.minLng) (h2 : target.maxLng < image.maxLng)
    (h3 : image.minLat < target.minLat) (h4 : target.maxLat ≤ image.maxLat)
    (htlng : target.minLng < target.maxLng) (htlat : target.minLat < target.maxLat) :
    (0 ≤ (MercatorUtil.geoBoundsToPixelBoundsAtZoom R target image (W : ℚ) (H : ℚ) zoom).minX ∧
     (MercatorUtil.geoBoundsToPixelBoundsAtZoom R target image (W : ℚ) (H : ℚ) zoom).minX <
       (MercatorUtil.geoBoundsToPixelBoundsAtZoom R target image (W : ℚ) (H : ℚ) zoom).maxX ∧
     (MercatorUtil.geoBoundsToPixelBoundsAtZoom R target image (W : ℚ) (H : ℚ) zoom).maxX ≤ (W : ℚ) ∧
     0 ≤ (MercatorUtil.geoBoundsToPixelBoundsAtZoom R target image (W : ℚ) (H : ℚ) zoom).minY ∧
     (MercatorUtil.geoBoundsToPixelBoundsAtZoom R target image (W : ℚ) (H : ℚ) zoom).minY <
       (MercatorUtil.geoBoundsToPixelBoundsAtZoom R target image (W : ℚ) (H : ℚ) zoom).maxY ∧
     (MercatorUtil.geoBoundsToPixelBoundsAtZoom R target image (W : ℚ) (H : ℚ) zoom).maxY ≤ (H : ℚ)) ∧
    StitchingService.validatePixelBounds
      (MercatorUtil.geoBoundsToPixelBoundsAtZoom R target image (W : ℚ) (H : ℚ) zoom)
      (W : ℚ) (H : ℚ) = .ok () := by
  have hS : (0 : ℚ) < 256 * 2 ^ zoom := by positivity
  have hWq : (0 : ℚ) < (W : ℚ) := by exact_mod_cast hW
  have hHq : (0 : ℚ) < (H : ℚ) := by exact_mod_cast hH
  have pxXle : ∀ a b : ℚ, a ≤ b → mercPixelX a zoom ≤ mercPixelX b zoom := by
    intro a b hab
    unfold mercPixelX
    gcongr
  have pxXlt : ∀ a b : ℚ, a < b → mercPixelX a zoom < mercPixelX b zoom := by
    intro a b hab
    unfold mercPixelX
    gcongr
  have pxYle : ∀ a b : ℚ, a ≤ b → mercPixelY R b zoom ≤ mercPixelY R a zoom := by
    intro a b hab
    unfold mercPixelY
    have := hmono.le_iff_le.mpr hab
    gcongr
  have pxYlt : ∀ a b : ℚ, a < b → mercPixelY R b zoom < mercPixelY R a zoom := by
    intro a b hab
    unfold mercPixelY
    have := hmono hab
    gcongr
  have hilng : image.minLng < image.maxLng := lt_of_le_of_lt h1 (htlng.trans h2)
  have hilat : image.minLat < image.maxLat := lt_of_lt_of_le (h3.trans htlat) h4
  have hdenx : 0 < mercPixelX image.maxLng zoom - mercPixelX image.minLng zoom :=
    sub_pos.mpr (pxXlt _ _ hilng)
  have hdeny : 0 < mercPixelY R image.minLat zoom - mercPixelY R image.maxLat zoom :=
    sub_pos.mpr (pxYlt _ _ hilat)
  have ha0 : 0 ≤ (mercPixelX target.minLng zoom - mercPixelX image.minLng zoom) * (W : ℚ) /
      (mercPixelX image.maxLng zoom - mercPixelX image.minLng zoom) :=
    div_nonneg (mul_nonneg (sub_nonneg.mpr (pxXle _ _ h1)) hWq.le) hdenx.le
  have hbW : (mercPixelX target.maxLng zoom - mercPixelX image.minLng zoom) * (W : ℚ) /
      (mercPixelX image.maxLng zoom - mercPixelX image.minLng zoom) ≤ (W : ℚ) := by
    rw [div_le_iff hdenx]
    have hle : mercPixelX target.maxLng zoom - mercPixelX image.minLng zoom ≤
        mercPixelX image.maxLng zoom - mercPixelX image.minLng zoom :=
      sub_le_sub_right (pxXle _ _ h2.le) _
    nlinarith
  have hab : (mercPixelX target.minLng zoom - mercPixelX image.minLng zoom) * (W : ℚ) /
      (mercPixelX image.maxLng zoom - mercPixelX image.minLng zoom) <
      (mercPixelX target.maxLng zoom - mercPixelX image.minLng zoom) * (W : ℚ) /
      (mercPixelX image.maxLng zoom - mercPixelX image.minLng zoom) := by
    have hnum : mercPixelX target.minLng zoom - mercPixelX image.minLng zoom <
        mercPixelX target.maxLng zoom - mercPixelX image.minLng zoom :=
      sub_lt_sub_right (pxXlt _ _ htlng) _
    exact (div_lt_div_right hdenx).mpr (mul_lt_mul_of_pos_right hnum hWq)
  have hc0 : 0 ≤ (mercPixelY R target.maxLat zoom - mercPixelY R image.maxLat zoom) * (H : ℚ) /
      (mercPixelY R image.minLat zoom - mercPixelY R image.maxLat zoom) :=
    div_nonneg (mul_nonneg (sub_nonneg.mpr (pxYle _ _ h4)) hHq.le) hdeny.le
  have hdH : (mercPixelY R target.minLat zoom - mercPixelY R image.maxLat zoom) * (H : ℚ) /
      (mercPixelY R image.minLat zoom - mercPixelY R image.maxLat zoom) ≤ (H : ℚ) := by
    rw [div_le_iff hdeny]
    have hle : mercPixelY R target.minLat zoom - mercPixelY R image.maxLat zoom ≤
        mercPixelY R image.minLat zoom - mercPixelY R image.maxLat zoom :=
      sub_le_sub_right (pxYle _ _ h3.le) _
    nlinarith
  have hcd : (mercPixelY R target.maxLat zoom - mercPixelY R image.maxLat zoom) * (H : ℚ) /
      (mercPixelY R image.minLat zoom - mercPixelY R image.maxLat zoom) <
      (mercPixelY R target.minLat zoom - mercPixelY R image.maxLat zoom) * (H : ℚ) /
      (mercPixelY R image.minLat zoom - mercPixelY R image.maxLat zoom) := by
    have hnum : mercPixelY R target.maxLat zoom - mercPixelY R image.maxLat zoom <
        mercPixelY R target.minLat zoom - mercPixelY R image.maxLat zoom :=
      sub_lt_sub_right (pxYlt _ _ htlat) _
    exact (div_lt_div_right hdeny).mpr (mul_lt_mul_of_pos_right hnum hHq)
  have q1 : (0 : ℚ) ≤
      (MercatorUtil.geoBoundsToPixelBoundsAtZoom R target image (W : ℚ) (H : ℚ) zoom).minX := by
    simp only [MercatorUtil.geoBoundsToPixelBoundsAtZoom]
    exact_mod_cast Int.floor_nonneg.mpr ha0
  have q2 : (MercatorUtil.geoBoundsToPixelBoundsAtZoom R target image (W : ℚ) (H : ℚ) zoom).minX <
      (MercatorUtil.geoBoundsToPixelBoundsAtZoom R target image (W : ℚ) (H : ℚ) zoom).maxX := by
    simp only [MercatorUtil.geoBoundsToPixelBoundsAtZoom]
    exact_mod_cast Int.floor_lt_ceil_of_lt hab
  have q3 : (MercatorUtil.geoBoundsToPixelBoundsAtZoom R target image (W : ℚ) (H : ℚ) zoom).maxX ≤
      (W : ℚ) := by
    simp only [MercatorUtil.geoBoundsToPixelBoundsAtZoom]
    exact_mod_cast Int.ceil_le.mpr hbW
  have q4 : (0 : ℚ) ≤
      (MercatorUtil.geoBoundsToPixelBoundsAtZoom R target image (W : ℚ) (H : ℚ) zoom).minY := by
    simp only [MercatorUtil.geoBoundsToPixelBoundsAtZoom]
    exact_mod_cast Int.floor_nonneg.mpr hc0
  have q5 : (MercatorUtil.geoBoundsToPixelBoundsAtZoom R target image (W : ℚ) (H : ℚ) zoom).minY <
      (MercatorUtil.geoBoundsToPixelBoundsAtZoom R target image (W : ℚ) (H : ℚ) zoom).maxY := by
    simp only [MercatorUtil.geoBoundsToPixelBoundsAtZoom]
    exact_mod_cast Int.floor_lt_ceil_of_lt hcd
  have q6 : (MercatorUtil.geoBoundsToPixelBoundsAtZoom R target image (W : ℚ) (H : ℚ) zoom).maxY ≤
      (H : ℚ) := by
    simp only [MercatorUtil.geoBoundsToPixelBoundsAtZoom]
    exact_mod_cast Int.ceil_le.mpr hdH
  refine ⟨⟨q1, q2, q3, q4, q5, q6⟩, ?_⟩
  have c1 : ¬((MercatorUtil.geoBoundsToPixelBoundsAtZoom R target image (W : ℚ) (H : ℚ) zoom).minX < 0 ∨
      (W : ℚ) < (MercatorUtil.geoBoundsToPixelBoundsAtZoom R target image (W : ℚ) (H : ℚ) zoom).maxX) := by
    push_neg
    exact ⟨q1, q3⟩
  have c2 : ¬((MercatorUtil.geoBoundsToPixelBoundsAtZoom R target image (W : ℚ) (H : ℚ) zoom).minY < 0 ∨
      (H : ℚ) < (MercatorUtil.geoBoundsToPixelBoundsAtZoom R target image (W : ℚ) (H : ℚ) zoom).maxY) := by
    push_neg
    exact ⟨q4, q6⟩
  have c3 : ¬((MercatorUtil.geoBoundsToPixelBoundsAtZoom R target image (W : ℚ) (H : ℚ) zoom).maxX ≤
      (MercatorUtil.geoBoundsToPixelBoundsAtZoom R target image (W : ℚ) (H : ℚ) zoom).minX) :=
    not_le.mpr q2
  have c4 : ¬((MercatorUtil.geoBoundsToPixelBoundsAtZoom R target image (W : ℚ) (H : ℚ) zoom).maxY ≤
      (MercatorUtil.geoBoundsToPixelBoundsAtZoom R target image (W : ℚ) (H : ℚ) zoom).minY) :=
    not_le.mpr q5
  simp only [StitchingService.validatePixelBounds]
  rw [if_neg c1, if_neg c2, if_neg c3, if_neg c4]

/-- C4: for valid target bounds, the tile grid built by
`TileService.calculateTiles` has a `tileBounds` that geographically
contains `targetBounds`, and the crop rectangle computed by
`geoBoundsToPixelBoundsAtZoom(targetBounds, tileBounds, W, H, zoom)`
satisfies `0 ≤ minX < maxX ≤ W` and `0 ≤ minY < maxY ≤ H`, so the crop
validation of the stitching stage never fails.  The hypotheses state
that the model's normalized Mercator latitude is strictly increasing and
round-trips through its inverse. -/
theorem tileGrid_contains_target_and_crop_valid (R : RealOps)
    (hmono : StrictMono (mercNorm R))
    (hrt : ∀ t, mercNorm R (latOfNorm R t) = t)
    (bounds : GeoBounds)
    (hlat : bounds.minLat < bounds.maxLat)
    (hlng : bounds.minLng < bounds.maxLng)
    (zoom : ℕ) (W H : ℤ) (hW : 0 < W) (hH : 0 < H) :
    ((TileService.calculateTiles R bounds zoom).tileGrid.tileBounds.minLat ≤ bounds.minLat ∧
     bounds.maxLat ≤ (TileService.calculateTiles R bounds zoom).tileGrid.tileBounds.maxLat ∧
     (TileService.calculateTiles R bounds zoom).tileGrid.tileBounds.minLng ≤ bounds.minLng ∧
     bounds.maxLng ≤ (TileService.calculateTiles R bounds zoom).tileGrid.tileBounds.maxLng) ∧
    (0 ≤ (MercatorUtil.geoBoundsToPixelBoundsAtZoom R
        (TileService.calculateTiles R bounds zoom).tileGrid.targetBounds
        (TileService.calculateTiles R bounds zoom).tileGrid.tileBounds
        (W : ℚ) (H : ℚ) zoom).minX ∧
     (MercatorUtil.geoBoundsToPixelBoundsAtZoom R
        (TileService.calculateTiles R bounds zoom).tileGrid.targetBounds
        (TileService.calculateTiles R bounds zoom).tileGrid.tileBounds
        (W : ℚ) (H : ℚ) zoom).minX <
       (MercatorUtil.geoBoundsToPixelBoundsAtZoom R
        (TileService.calculateTiles R bounds zoom).tileGrid.targetBounds
        (TileService.calculateTiles R bounds zoom).tileGrid.tileBounds
        (W : ℚ) (H : ℚ) zoom).maxX ∧
     (MercatorUtil.geoBoundsToPixelBoundsAtZoom R
        (TileService.calculateTiles R bounds zoom).tileGrid.targetBounds
        (TileService.calculateTiles R bounds zoom).tileGrid.tileBounds
        (W : ℚ) (H : ℚ) zoom).maxX ≤ (W : ℚ) ∧
     0 ≤ (MercatorUtil.geoBoundsToPixelBoundsAtZoom R
        (TileService.calculateTiles R bounds zoom).tileGrid.targetBounds
        (TileService.calculateTiles R bounds zoom).tileGrid.tileBounds
        (W : ℚ) (H : ℚ) zoom).minY ∧
     (MercatorUtil.geoBoundsToPixelBoundsAtZoom R
        (TileService.calculateTiles R bounds zoom).tileGrid.targetBounds
        (TileService.calculateTiles R bounds zoom).tileGrid.tileBounds
        (W : ℚ) (H : ℚ) zoom).minY <
       (MercatorUtil.geoBoundsToPixelBoundsAtZoom R
        (TileService.calculateTiles R bounds zoom).tileGrid.targetBounds
        (TileService.calculateTiles R bounds zoom).tileGrid.tileBounds
        (W : ℚ) (H : ℚ) zoom).maxY ∧
     (MercatorUtil.geoBoundsToPixelBoundsAtZoom R
        (TileService.calculateTiles R bounds zoom).tileGrid.targetBounds
        (TileService.calculateTiles R bounds zoom).tileGrid.tileBounds
        (W : ℚ) (H : ℚ) zoom).maxY ≤ (H : ℚ)) ∧
    StitchingService.validatePixelBounds
      (MercatorUtil.geoBoundsToPixelBoundsAtZoom R
        (TileService.calculateTiles R bounds zoom).tileGrid.targetBounds
        (TileService.calculateTiles R bounds zoom).tileGrid.tileBounds
        (W : ℚ) (H : ℚ) zoom)
      (W : ℚ) (H : ℚ) = .ok () := by
  have hn : (0 : ℚ) < 2 ^ zoom := by positivity
  have hminLng :
      (TileService.calculateTiles R bounds zoom).tileGrid.tileBounds.minLng ≤ bounds.minLng := by
    show ((⌊(bounds.minLng + 180) / 360 * ((2 : ℚ) ^ zoom)⌋ : ℚ)) / (2 ^ zoom) * 360 - 180 ≤
      bounds.minLng
    have := tile_x_lower (bounds.minLng + 180) (2 ^ zoom) hn
    linarith
  have hmaxLng :
      bounds.maxLng < (TileService.calculateTiles R bounds zoom).tileGrid.tileBounds.maxLng := by
    show bounds.maxLng <
      ((⌊(bounds.maxLng + 180) / 360 * ((2 : ℚ) ^ zoom)⌋ : ℚ) + 1) / (2 ^ zoom) * 360 - 180
    have := tile_x_upper (bounds.maxLng + 180) (2 ^ zoom) hn
    linarith
  have hmaxLat :
      bounds.maxLat ≤ (TileService.calculateTiles R bounds zoom).tileGrid.tileBounds.maxLat := by
    show bounds.maxLat ≤ latOfNorm R
      (1 - 2 * ((⌊(1 - mercNorm R bounds.maxLat) / 2 * ((2 : ℚ) ^ zoom)⌋ : ℚ)) / (2 ^ zoom))
    have hb := (tile_y_brackets (mercNorm R bounds.maxLat) (2 ^ zoom) hn).2
    have hm : mercNorm R bounds.maxLat ≤ mercNorm R (latOfNorm R
        (1 - 2 * ((⌊(1 - mercNorm R bounds.maxLat) / 2 * ((2 : ℚ) ^ zoom)⌋ : ℚ)) / (2 ^ zoom))) := by
      rw [hrt]
      exact hb
    exact hmono.le_iff_le.mp hm
  have hminLat :
      (TileService.calculateTiles R bounds zoom).tileGrid.tileBounds.minLat < bounds.minLat := by
    show latOfNorm R
      (1 - 2 * ((⌊(1 - mercNorm R bounds.minLat) / 2 * ((2 : ℚ) ^ zoom)⌋ : ℚ) + 1) / (2 ^ zoom)) <
      bounds.minLat
    have hb := (tile_y_brackets (mercNorm R bounds.minLat) (2 ^ zoom) hn).1
    have hm : mercNorm R (latOfNorm R
        (1 - 2 * ((⌊(1 - mercNorm R bounds.minLat) / 2 * ((2 : ℚ) ^ zoom)⌋ : ℚ) + 1) / (2 ^ zoom))) <
        mercNorm R bounds.minLat := by
      rw [hrt]
      exact hb
    exact hmono.lt_iff_lt.mp hm
  refine ⟨⟨le_of_lt hminLat, hmaxLat, hminLng, le_of_lt hmaxLng⟩, ?_⟩
  exact cropPixelBounds_valid R hmono bounds
    (TileService.calculateTiles R bounds zoom).tileGrid.tileBounds zoom W H hW hH
    hminLng hmaxLng hminLat hmaxLat hlng hlat

/-- In the identity model the normalized Mercator latitude is strictly
increasing. -/
theorem idOps_mercNorm_strictMono : StrictMono (mercNorm idOps) := by
  intro a b hab
  simp only [mercNorm, idOps, id]
  norm_num
  linarith

/-- In the identity model the normalized Mercator latitude round-trips
through its inverse. -/
theorem idOps_mercNorm_roundtrip : ∀ t : ℚ, mercNorm idOps (latOfNorm idOps t) = t := by
  intro t
  simp only [mercNorm, latOfNorm, idOps, id]
  norm_num

/-- C4 witness: a concrete 10-degree bounds at zoom 2 with a 512 by 512
full canvas; the crop validation passes. -/
theorem tileGrid_contains_target_and_crop_valid_witness :
    StitchingService.validatePixelBounds
      (MercatorUtil.geoBoundsToPixelBoundsAtZoom idOps
        (TileService.calculateTiles idOps ⟨0, 10, 0, 10⟩ 2).tileGrid.targetBounds
        (TileService.calculateTiles idOps ⟨0, 10, 0, 10⟩ 2).tileGrid.tileBounds
        ((512 : ℤ) : ℚ) ((512 : ℤ) : ℚ) 2)
      ((512 : ℤ) : ℚ) ((512 : ℤ) : ℚ) = .ok () :=
  (tileGrid_contains_target_and_crop_valid idOps idOps_mercNorm_strictMono
    idOps_mercNorm_roundtrip ⟨0, 10, 0, 10⟩ (by norm_num) (by norm_num) 2 512 512
    (by norm_num) (by norm_num)).2.2

/-- Bitwise or of a small number with a shifted number is addition:
`a ||| (m <<< k) = a + m * 2^k` when `a < 2^k`. -/
theorem lor_shiftLeft_eq_add (a m k : ℕ) (h : a < 2 ^ k) :
    a ||| (m <<< k) = a + m * 2 ^ k := by
  apply Nat.eq_of_testBit_eq
  intro j
  rw [Nat.testBit_or, Nat.testBit_shiftLeft]
  by_cases hj : j < k
  · have h2 : ¬(k ≤ j) := by omega
    simp only [ge_iff_le, h2, decide_False, Bool.false_and, Bool.or_false]
    have hsplit : (2 : ℕ) ^ k = 2 ^ (k - j) * 2 ^ j := by
      rw [← pow_add]
      congr 1
      omega
    have hdiv : (a + m * 2 ^ k) / 2 ^ j = a / 2 ^ j + m * 2 ^ (k - j) := by
      rw [hsplit, show m * (2 ^ (k - j) * 2 ^ j) = m * 2 ^ (k - j) * 2 ^ j by ring]
      exact Nat.add_mul_div_right _ _ (Nat.pos_pow_of_pos j (by omega))
    have heven : m * 2 ^ (k - j) % 2 = 0 := by
      have hd : (2 : ℕ) ∣ 2 ^ (k - j) := dvd_pow_self 2 (by omega : k - j ≠ 0)
      obtain ⟨c, hc⟩ := hd
      rw [hc, show m * (2 * c) = m * c * 2 by ring]
      exact Nat.mul_mod_left _ _
    rw [Nat.testBit_to_div_mod, Nat.testBit_to_div_mod, hdiv, decide_eq_decide]
    generalize a / 2 ^ j = x
    omega
  · have h2 : k ≤ j := le_of_not_lt hj
    have ha : a.testBit j = false :=
      Nat.testBit_lt_two_pow (lt_of_lt_of_le h (pow_le_pow_right (by omega) h2))
    simp only [ge_iff_le, h2, decide_True, Bool.true_and, ha, Bool.false_or]
    have hj' : j = k + (j - k) := by omega
    have hdiv : (a + m * 2 ^ k) / 2 ^ j = m / 2 ^ (j - k) := by
      conv_lhs => rw [hj']
      rw [pow_add, ← Nat.div_div_eq_div_mul,
        Nat.add_mul_div_right _ _ (Nat.pos_pow_of_pos k (by omega)),
        Nat.div_eq_of_lt h, Nat.zero_add]
    rw [Nat.testBit_to_div_mod, Nat.testBit_to_div_mod, hdiv]

/-- The continuation chunk value is `32 + low-five-bits`. -/
theorem lor_32_eq_add (r : ℕ) (h : r < 32) : 32 ||| r = 32 + r := by
  have h5 : r ||| (1 <<< 5) = r + 1 * 2 ^ 5 := lor_shiftLeft_eq_add r 1 5 (by omega)
  rw [Nat.lor_comm]
  simpa [Nat.add_comm] using h5

/-- `b &&& 31` is `b % 32`. -/
theorem and_31_eq_mod (b : ℕ) : b &&& 31 = b % 32 := by
  have h := Nat.and_pow_two_sub_one_eq_mod b 5
  norm_num at h
  exact h

/-- `encodeChunks` always emits at least one chunk. -/
theorem encodeChunks_ne_nil (v : ℕ) : encodeChunks v ≠ [] := by
  rw [encodeChunks]
  split <;> simp

/-- Decoding the chunk stream of one value consumes exactly that stream
and accumulates the value at the current shift position. -/
theorem decodeValue_encodeChunks (v : ℕ) :
    ∀ (shift acc : ℕ) (rest : List ℕ), acc < 2 ^ shift →
      decodeValue (encodeChunks v ++ rest) shift acc = some (acc + v * 2 ^ shift, rest) := by
  induction v using Nat.strong_induction_on with
  | _ v ih =>
    intro shift acc rest hacc
    by_cases hv : 32 ≤ v
    · rw [encodeChunks, dif_pos hv, List.cons_append]
      have hr : v % 32 < 32 := Nat.mod_lt _ (by omega)
      have hb32 : 32 ||| v % 32 = 32 + v % 32 := lor_32_eq_add _ hr
      show decodeValue _ _ _ = _
      rw [decodeValue]
      simp only [hb32]
      have hbval : 32 + v % 32 + 63 - 63 = 32 + v % 32 := by omega
      rw [hbval, and_31_eq_mod, show (32 + v % 32) % 32 = v % 32 by omega,
        if_pos (by omega : 32 ≤ 32 + v % 32)]
      have hacc' : acc ||| (v % 32) <<< shift = acc + v % 32 * 2 ^ shift :=
        lor_shiftLeft_eq_add _ _ _ hacc
      rw [hacc']
      have hpow : (2 : ℕ) ^ (shift + 5) = 32 * 2 ^ shift := by
        rw [pow_add]
        ring
      have hacclt : acc + v % 32 * 2 ^ shift < 2 ^ (shift + 5) := by
        have hmul : v % 32 * 2 ^ shift ≤ 31 * 2 ^ shift :=
          Nat.mul_le_mul_right _ (by omega)
        rw [hpow]
        omega
      rw [ih (v / 32) (Nat.div_lt_self (by omega) (by omega)) (shift + 5) _ rest hacclt]
      have hrecompose : acc + v % 32 * 2 ^ shift + v / 32 * 2 ^ (shift + 5) =
          acc + v * 2 ^ shift := by
        have hsplit : v % 32 * 2 ^ shift + v / 32 * (32 * 2 ^ shift) = v * 2 ^ shift := by
          rw [show v * 2 ^ shift = (32 * (v / 32) + v % 32) * 2 ^ shift by
            rw [Nat.div_add_mod]]
          ring
        rw [hpow]
        omega
      rw [hrecompose]
    · rw [encodeChunks, dif_neg hv, List.cons_append, List.nil_append]
      rw [decodeValue]
      have hbval : v + 63 - 63 = v := by omega
      rw [hbval, and_31_eq_mod, Nat.mod_eq_of_lt (by omega : v < 32),
        if_neg (by omega : ¬32 ≤ v)]
      have hacc' : acc ||| v <<< shift = acc + v * 2 ^ shift :=
        lor_shiftLeft_eq_add _ _ _ hacc
      rw [hacc']

/-- `unzigzag` in parity/halving form. -/
theorem unzigzag_eq (r : ℕ) :
    unzigzag r = if r % 2 = 1 then -((r / 2 : ℕ) : ℤ) - 1 else ((r / 2 : ℕ) : ℤ) := by
  unfold unzigzag
  simp only [Nat.and_one_is_mod, Nat.shiftRight_eq_div_pow, pow_one]
  by_cases h : r % 2 = 1
  · rw [if_pos (by omega), if_pos h]
  · rw [if_neg (by omega), if_neg h]

/-- For deltas inside the int32-exact range, the zig-zag encoding is
nonnegative and `unzigzag` inverts it. -/
theorem zigzag_spec (δ : ℤ) (hlo : -(2 ^ 30) < δ) (hhi : δ < 2 ^ 30) :
    0 ≤ zigzag δ ∧ unzigzag (zigzag δ).toNat = δ := by
  have h2 : toInt32 (2 * δ) = 2 * δ := by unfold toInt32; omega
  unfold zigzag
  by_cases hδ : δ < 0
  · rw [if_pos hδ, h2]
    refine ⟨by omega, ?_⟩
    rw [unzigzag_eq]
    split <;> omega
  · rw [if_neg hδ, h2]
    refine ⟨by omega, ?_⟩
    rw [unzigzag_eq]
    split <;> omega

/-- Decoding exactly one encoded value from the head of a stream. -/
theorem decodeValue_encodeValue (δ : ℤ) (rest : List ℕ) :
    decodeValue (PolylineUtil.encodeValue δ ++ rest) 0 0 = some ((zigzag δ).toNat, rest) := by
  unfold PolylineUtil.encodeValue
  have h := decodeValue_encodeChunks (zigzag δ).toNat 0 0 rest (by norm_num)
  simpa using h

/-- The scaled coordinate of a bounded coordinate is bounded:
`|q| ≤ M` gives `|e5 q| ≤ M * 100000 + 1`. -/
theorem e5_bound (q : ℚ) (M : ℤ) (hM : 0 ≤ M) (h : |q| ≤ (M : ℚ)) :
    -(M * 100000 + 1) ≤ e5 q ∧ e5 q ≤ M * 100000 + 1 := by
  rw [abs_le] at h
  unfold e5 jsRound
  constructor
  · apply Int.le_floor.mpr
    push_cast
    nlinarith [h.1]
  · have hle : q * 100000 + 1 / 2 ≤ ((M * 100000 + 1 : ℤ) : ℚ) := by
      push_cast
      nlinarith [h.2]
    calc ⌊q * 100000 + 1 / 2⌋ ≤ ⌊((M * 100000 + 1 : ℤ) : ℚ)⌋ := Int.floor_le_floor hle
      _ = M * 100000 + 1 := Int.floor_intCast _

/-- The decoded coordinate is within `1e-5` of the original. -/
theorem e5_close (q : ℚ) : |(e5 q : ℚ) * (1 / 100000) - q| ≤ 1 / 100000 := by
  unfold e5 jsRound
  have h1 : (⌊q * 100000 + 1 / 2⌋ : ℚ) ≤ q * 100000 + 1 / 2 := Int.floor_le _
  have h2 : q * 100000 + 1 / 2 < (⌊q * 100000 + 1 / 2⌋ : ℚ) + 1 := Int.lt_floor_add_one _
  rw [abs_le]
  constructor <;> linarith

/-- The decoded coordinate is exactly the original when the original is
an integer multiple of `1e-5`. -/
theorem e5_exact (q : ℚ) (n : ℤ) (h : q = (n : ℚ) / 100000) :
    (e5 q : ℚ) * (1 / 100000) = q := by
  subst h
  unfold e5 jsRound
  have harg : (n : ℚ) / 100000 * 100000 + 1 / 2 = (1 : ℚ) / 2 + (n : ℤ) := by
    push_cast
    field_simp
    ring
  rw [harg, Int.floor_add_int, show ⌊(1 : ℚ) / 2⌋ = 0 by norm_num, Int.zero_add]
  push_cast
  ring

/-- `PolylineUtil.encodeValue` always emits at least one character. -/
theorem encodeValue_ne_nil (δ : ℤ) : PolylineUtil.encodeValue δ ≠ [] := by
  unfold PolylineUtil.encodeValue
  exact encodeChunks_ne_nil _

/-- `decodeLoop` on an empty stream yields the empty list. -/
theorem decodeLoop_nil (fuel : ℕ) (lat lng : ℤ) : decodeLoop fuel [] lat lng = some [] := by
  cases fuel <;> rfl

/-- One full iteration of `decodeLoop` when both value reads succeed. -/
theorem decodeLoop_cons_eval (f : ℕ) (c : ℕ) (L : List ℕ) (lat lng : ℤ)
    (v1 : ℕ) (t1 : List ℕ) (v2 : ℕ) (t2 : List ℕ)
    (h1 : decodeValue (c :: L) 0 0 = some (v1, t1))
    (h2 : decodeValue t1 0 0 = some (v2, t2)) :
    decodeLoop (f + 1) (c :: L) lat lng =
      (decodeLoop f t2 (lat + unzigzag v1) (lng + unzigzag v2)).map
        (fun points => (⟨((lat + unzigzag v1 : ℤ) : ℚ) * (1 / 100000),
          ((lng + unzigzag v2 : ℤ) : ℚ) * (1 / 100000)⟩ : LatLng) :: points) := by
  have hstep : decodeLoop (f + 1) (c :: L) lat lng =
      match decodeValue (c :: L) 0 0 with
      | none => none
      | some (r1, rest1) =>
        match decodeValue rest1 0 0 with
        | none => none
        | some (r2, rest2) =>
          (decodeLoop f rest2 (lat + unzigzag r1) (lng + unzigzag r2)).map
            (fun points => (⟨((lat + unzigzag r1 : ℤ) : ℚ) * (1 / 100000),
              ((lng + unzigzag r2 : ℤ) : ℚ) * (1 / 100000)⟩ : LatLng) :: points) := rfl
  rw [hstep, h1]
  dsimp only
  rw [h2]

/-- The decode loop inverts the encode loop: starting from matching
scaled previous coordinates and enough fuel, decoding the encoded
stream of a list of bounded GPS points yields exactly the points
rounded to `1e-5` precision. -/
theorem decodeLoop_encodeLoop (pts : List LatLng) :
    ∀ (fuel : ℕ) (plat plng : ℤ),
      (encodeLoop pts plat plng).length ≤ fuel →
      (∀ p ∈ pts, |p.lat| ≤ 90 ∧ |p.lng| ≤ 180) →
      -9000001 ≤ plat → plat ≤ 9000001 →
      -18000001 ≤ plng → plng ≤ 18000001 →
      decodeLoop fuel (encodeLoop pts plat plng) plat plng =
        some (pts.map (fun p =>
          (⟨(e5 p.lat : ℚ) * (1 / 100000), (e5 p.lng : ℚ) * (1 / 100000)⟩ : LatLng))) := by
  induction pts with
  | nil =>
    intro fuel plat plng _ _ _ _ _ _
    rw [encodeLoop]
    exact decodeLoop_nil fuel plat plng
  | cons p rest ih =>
    intro fuel plat plng hfuel hb hplat1 hplat2 hplng1 hplng2
    have hp := hb p (List.mem_cons_self p rest)
    have hrest : ∀ q ∈ rest, |q.lat| ≤ 90 ∧ |q.lng| ≤ 180 :=
      fun q hq => hb q (List.mem_cons_of_mem _ hq)
    have hlatB := e5_bound p.lat 90 (by norm_num) hp.1
    have hlngB := e5_bound p.lng 180 (by norm_num) hp.2
    obtain ⟨hz1nn, hz1⟩ := zigzag_spec (e5 p.lat - plat) (by omega) (by omega)
    obtain ⟨hz2nn, hz2⟩ := zigzag_spec (e5 p.lng - plng) (by omega) (by omega)
    have henc : encodeLoop (p :: rest) plat plng =
        PolylineUtil.encodeValue (e5 p.lat - plat) ++
          (PolylineUtil.encodeValue (e5 p.lng - plng) ++
            encodeLoop rest (e5 p.lat) (e5 p.lng)) := by
      rw [encodeLoop, List.append_assoc]
    obtain ⟨c1, cs1, hc1⟩ :=
      List.exists_cons_of_ne_nil (encodeChunks_ne_nil (zigzag (e5 p.lat - plat)).toNat)
    have hlist : encodeLoop (p :: rest) plat plng =
        c1 :: (cs1 ++
          (PolylineUtil.encodeValue (e5 p.lng - plng) ++
            encodeLoop rest (e5 p.lat) (e5 p.lng))) := by
      rw [henc]
      unfold PolylineUtil.encodeValue
      rw [hc1, List.cons_append]
    have hdec1 : decodeValue
        (c1 :: (cs1 ++
          (PolylineUtil.encodeValue (e5 p.lng - plng) ++
            encodeLoop rest (e5 p.lat) (e5 p.lng)))) 0 0 =
        some ((zigzag (e5 p.lat - plat)).toNat,
          PolylineUtil.encodeValue (e5 p.lng - plng) ++
            encodeLoop rest (e5 p.lat) (e5 p.lng)) := by
      rw [← List.cons_append, ← hc1]
      exact decodeValue_encodeValue _ _
    have hdec2 : decodeValue
        (PolylineUtil.encodeValue (e5 p.lng - plng) ++
          encodeLoop rest (e5 p.lat) (e5 p.lng)) 0 0 =
        some ((zigzag (e5 p.lng - plng)).toNat,
          encodeLoop rest (e5 p.lat) (e5 p.lng)) :=
      decodeValue_encodeValue _ _
    obtain ⟨f, rfl⟩ : ∃ f, fuel = f + 1 := by
      rw [hlist] at hfuel
      simp only [List.length_cons] at hfuel
      exact ⟨fuel - 1, by omega⟩
    have hfuel2 : (encodeLoop rest (e5 p.lat) (e5 p.lng)).length ≤ f := by
      rw [hlist] at hfuel
      have hev2 : 0 < (PolylineUtil.encodeValue (e5 p.lng - plng)).length :=
        List.length_pos.mpr (encodeValue_ne_nil _)
      simp only [List.length_cons, List.length_append] at hfuel
      omega
    rw [hlist]
    rw [decodeLoop_cons_eval f c1 _ plat plng _ _ _ _ hdec1 hdec2]
    rw [hz1, hz2]
    have hlat' : plat + (e5 p.lat - plat) = e5 p.lat := by ring
    have hlng' : plng + (e5 p.lng - plng) = e5 p.lng := by ring
    rw [hlat', hlng']
    rw [ih f (e5 p.lat) (e5 p.lng) hfuel2 hrest (by omega) (by omega) (by omega) (by omega)]
    rfl

/-- C9: decoding the polyline encoding of a list of GPS points yields a
list of the same length whose coordinates differ from the originals by
at most `1e-5` degrees, with exact equality on every coordinate that is
an integer multiple of `1e-5`.  The hypothesis restricts the points to
the WGS84 coordinate ranges of the `GeoPoint` data model, inside which
the JS int32 bitwise arithmetic is exact. -/
theorem polyline_decode_encode_roundtrip (points : List LatLng)
    (hb : ∀ p ∈ points, |p.lat| ≤ 90 ∧ |p.lng| ≤ 180) :
    ∃ decoded, PolylineUtil.decode (PolylineUtil.encode points) = some decoded ∧
      decoded.length = points.length ∧
      List.Forall₂ (fun q p =>
        |q.lat - p.lat| ≤ 1 / 100000 ∧ |q.lng - p.lng| ≤ 1 / 100000 ∧
        ((∃ n : ℤ, p.lat = (n : ℚ) / 100000) → q.lat = p.lat) ∧
        ((∃ n : ℤ, p.lng = (n : ℚ) / 100000) → q.lng = p.lng)) decoded points := by
  have hdec : PolylineUtil.decode (PolylineUtil.encode points) =
      some (points.map (fun p =>
        (⟨(e5 p.lat : ℚ) * (1 / 100000), (e5 p.lng : ℚ) * (1 / 100000)⟩ : LatLng))) := by
    unfold PolylineUtil.decode PolylineUtil.encode
    exact decodeLoop_encodeLoop points _ 0 0 le_rfl hb (by norm_num) (by norm_num)
      (by norm_num) (by norm_num)
  refine ⟨_, hdec, by simp, ?_⟩
  clear hdec hb
  induction points with
  | nil => exact List.Forall₂.nil
  | cons p t ihl =>
    refine List.Forall₂.cons ⟨e5_close p.lat, e5_close p.lng, ?_, ?_⟩ ihl
    · rintro ⟨n, hn⟩
      exact e5_exact p.lat n hn
    · rintro ⟨n, hn⟩
      exact e5_exact p.lng n hn

/-- C9 witness: a concrete two-point list within GPS ranges. -/
theorem polyline_decode_encode_roundtrip_witness :
    (∀ p ∈ ([⟨0, 0⟩, ⟨1, 1⟩] : List LatLng), |p.lat| ≤ 90 ∧ |p.lng| ≤ 180) ∧
    ∃ decoded,
      PolylineUtil.decode (PolylineUtil.encode ([⟨0, 0⟩, ⟨1, 1⟩] : List LatLng)) =
        some decoded ∧ decoded.length = 2 := by
  have hb : ∀ p ∈ ([⟨0, 0⟩, ⟨1, 1⟩] : List LatLng), |p.lat| ≤ 90 ∧ |p.lng| ≤ 180 := by
    intro p hp
    rcases List.mem_cons.mp hp with h | hp2
    · rw [h]; constructor <;> norm_num
    · rcases List.mem_cons.mp hp2 with h | h
      · rw [h]; constructor <;> norm_num
      · exact absurd h (List.not_mem_nil p)
  refine ⟨hb, ?_⟩
  obtain ⟨d, hd, hlen, _⟩ := polyline_decode_encode_roundtrip [⟨0, 0⟩, ⟨1, 1⟩] hb
  exact ⟨d, hd, by rw [hlen]; rfl⟩

end Trajmap
